import Mathlib

/-! # go-practice: the CRUD/transfer demo and the schema verifier

Shallow embedding of `go-practice4/main.go` (`InsertUser`, `TransferBalance`)
and of `go-practice3/cmd/verify/main.go` (`main`).

Conventions of the embedding.

* The column `balance DECIMAL(10,2)` holds a whole number of cents or the
  value NaN of the type `numeric` (`Numeric`).
* A `float64` of the Go side (`Float64`) is NaN, an infinity, or a finite
  value.  A finite value is named by the decimal that the driver writes for
  it when it passes it to the database (`strconv.AppendFloat(_, 'f', -1,
  64)`, the shortest decimal that reads back as the same `float64`):
  `fin units scale` is `units / 10 ^ scale`, so `0.005` is `fin 5 3`.  On
  decimals of at most 15 significant digits, which covers every balance of
  the column, the order of these decimals is the order of the `float64`
  values.  The verb `%.2f` is computed on the binary value (`fmtFloat64`).
* The database evaluates `balance - $1` and `balance + $1` exactly in the
  type `numeric` and rounds the result to the two digits of the column,
  half away from zero; NaN absorbs; an infinite result is refused.
* The `users` table is the list of its rows.  `PRIMARY KEY` and `UNIQUE`
  are the predicates `uniqueIDs` and `uniqueEmails`.
* The database is outside the program.  Every call of the driver may fail
  for a reason the program does not control (lost connection, a value the
  column rejects for lack of digits, ...): the cause is supplied by a fault
  plan, `none` meaning that the call is executed.
* A transaction works on its own view of the table; `Commit` installs the
  view, `Rollback` discards it.
-/

namespace GoPractice

/-! ## Data model -/

/-- Text of an error raised by the driver or the database. -/
abbrev DriverError := String

/-- Value of the column `balance DECIMAL(10,2)`: a whole number of cents, or
the NaN of the type `numeric`. -/
inductive Numeric where
  | nan
  | cents (c : Int)
deriving DecidableEq

instance (n : Nat) : OfNat Numeric n := ⟨.cents n⟩

/-- A `float64` of the Go program.  The finite value `fin units scale` is
the one written `units / 10 ^ scale` in decimal. -/
inductive Float64 where
  | nan
  | posInf
  | negInf
  | fin (units : Int) (scale : Nat)
deriving DecidableEq

instance : OfNat Float64 0 := ⟨.fin 0 0⟩

/-- Power of ten, as an integer. -/
def pow10 (k : Nat) : Int := ((10 ^ k : Nat) : Int)

/-- The comparison `x < y` of two `float64`: false as soon as one is NaN. -/
def Float64.lt : Float64 → Float64 → Bool
  | .fin u k, .fin v l => decide (u * pow10 l < v * pow10 k)
  | .fin _ _, .posInf => true
  | .negInf, .fin _ _ => true
  | .negInf, .posInf => true
  | _, _ => false

/-- The comparison `x <= y` of two `float64`: false as soon as one is NaN. -/
def Float64.le : Float64 → Float64 → Bool
  | .fin u k, .fin v l => decide (u * pow10 l ≤ v * pow10 k)
  | .fin _ _, .posInf => true
  | .negInf, .fin _ _ => true
  | .negInf, .posInf => true
  | .posInf, .posInf => true
  | .negInf, .negInf => true
  | _, _ => false

instance : LT Float64 := ⟨fun x y => x.lt y = true⟩

instance : LE Float64 := ⟨fun x y => x.le y = true⟩

instance (x y : Float64) : Decidable (x < y) :=
  inferInstanceAs (Decidable (x.lt y = true))

instance (x y : Float64) : Decidable (x ≤ y) :=
  inferInstanceAs (Decidable (x.le y = true))

/-- The number of cents of a `float64` that is a whole number of cents. -/
def Float64.cents? : Float64 → Option Int
  | .fin u k => if 100 * u % pow10 k = 0 then some (100 * u / pow10 k) else none
  | _ => none

/-- A balance read into a `float64` variable (`tx.Get(&fromBalance, ...)`). -/
def Numeric.toFloat64 : Numeric → Float64
  | .nan => .nan
  | .cents c => .fin c 2

/-- The quotient `n / d` rounded to the nearest integer, a half going away
from zero: the rounding of `numeric` to the scale of a column. -/
def roundHalfAway (n : Int) (d : Nat) : Int :=
  if n < 0 then -(((2 * n.natAbs + d) / (2 * d) : Nat) : Int)
  else (((2 * n.natAbs + d) / (2 * d) : Nat) : Int)

/-- Refusal of a value that the column cannot hold. -/
def errOverflow : DriverError := "pq: numeric field overflow"

/-- The value stored by `SET balance = balance + $1`: NaN absorbs, also an
infinity (the type `numeric` of PostgreSQL 14 and later); an infinite result
is refused by the column; a finite result is rounded to two digits. -/
def Numeric.add : Numeric → Float64 → Except DriverError Numeric
  | .nan, _ => .ok .nan
  | .cents _, .nan => .ok .nan
  | .cents _, .posInf => .error errOverflow
  | .cents _, .negInf => .error errOverflow
  | .cents c, .fin u k => .ok (.cents (roundHalfAway (c * pow10 k + 100 * u) (10 ^ k)))

/-- The value stored by `SET balance = balance - $1`: NaN absorbs, also an
infinity; an infinite result is refused by the column; a finite result is
rounded to two digits. -/
def Numeric.sub : Numeric → Float64 → Except DriverError Numeric
  | .nan, _ => .ok .nan
  | .cents _, .nan => .ok .nan
  | .cents _, .posInf => .error errOverflow
  | .cents _, .negInf => .error errOverflow
  | .cents c, .fin u k => .ok (.cents (roundHalfAway (c * pow10 k - 100 * u) (10 ^ k)))

/-- A value of the column that is a number and is not negative. -/
def Numeric.nonneg : Numeric → Prop
  | .cents c => 0 ≤ c
  | .nan => False

instance (b : Numeric) : Decidable b.nonneg := by
  cases b <;> unfold Numeric.nonneg <;> infer_instance

/-- A value of the column moved by a whole number of cents. -/
def Numeric.shift : Numeric → Int → Numeric
  | .cents c, a => .cents (c + a)
  | .nan, _ => .nan

/-- A row of `users` (`type User struct`). -/
structure User where
  ID : Int
  Name : String
  Email : String
  Balance : Numeric
deriving DecidableEq

/-- The database: the committed rows of `users` and the next value of the
`SERIAL` sequence behind `users.id`. -/
structure DB where
  users : List User
  nextID : Int
deriving DecidableEq

/-- Primary-key constraint: `id SERIAL PRIMARY KEY`. -/
def uniqueIDs (users : List User) : Prop :=
  (users.map User.ID).Nodup

/-- Unique constraint: `email VARCHAR(100) UNIQUE NOT NULL`. -/
def uniqueEmails (users : List User) : Prop :=
  (users.map User.Email).Nodup

instance (users : List User) : Decidable (uniqueIDs users) := by
  unfold uniqueIDs; infer_instance

instance (users : List User) : Decidable (uniqueEmails users) := by
  unfold uniqueEmails; infer_instance

/-- Rows inserted by `applyInitialSchema` into a fresh table. -/
def seedUsers : List User :=
  [ { ID := 1, Name := "Alice Johnson", Email := "alice@example.com", Balance := 100000 },
    { ID := 2, Name := "Bob Smith", Email := "bob@example.com", Balance := 50000 },
    { ID := 3, Name := "Charlie Brown", Email := "charlie@example.com", Balance := 75000 },
    { ID := 4, Name := "Diana Prince", Email := "diana@example.com", Balance := 120000 } ]

/-- Database right after `applyInitialSchema` created and seeded the table. -/
def seedDB : DB := { users := seedUsers, nextID := 5 }

/-! ## SQL statements used by the program -/

/-- Query `SELECT balance FROM users WHERE id = $1`, first row. -/
def selectBalance (users : List User) (id : Int) : Option Numeric :=
  (users.find? (fun u => decide (u.ID = id))).map User.Balance

/-- Query `SELECT EXISTS(SELECT 1 FROM users WHERE id = $1)`. -/
def selectExists (users : List User) (id : Int) : Bool :=
  users.any (fun u => decide (u.ID = id))

/-- One row under `UPDATE users SET balance = balance - $1 WHERE id = $2`. -/
def debitRow (amount : Float64) (id : Int) (u : User) : Except DriverError User :=
  if u.ID = id then (u.Balance.sub amount).map (fun b => { u with Balance := b })
  else .ok u

/-- One row under `UPDATE users SET balance = balance + $1 WHERE id = $2`. -/
def creditRow (amount : Float64) (id : Int) (u : User) : Except DriverError User :=
  if u.ID = id then (u.Balance.add amount).map (fun b => { u with Balance := b })
  else .ok u

/-- Statement `UPDATE users SET balance = balance - $1 WHERE id = $2`: the
new table, or the refusal of a value. -/
def updateDebit (users : List User) (amount : Float64) (id : Int) :
    Except DriverError (List User) :=
  users.mapM (debitRow amount id)

/-- Statement `UPDATE users SET balance = balance + $1 WHERE id = $2`: the
new table, or the refusal of a value. -/
def updateCredit (users : List User) (amount : Float64) (id : Int) :
    Except DriverError (List User) :=
  users.mapM (creditRow amount id)

/-- The table in which the rows of identifier `id` are moved by a whole
number of cents. -/
def shiftRows (users : List User) (a : Int) (id : Int) : List User :=
  users.map (fun u => if u.ID = id then { u with Balance := u.Balance.shift a } else u)

/-! ## Transactions -/

/-- Lifecycle of a transaction handle. -/
inductive TxStatus where
  | active
  | committed
  | rolledBack
deriving DecidableEq

/-- A transaction handle (`*sqlx.Tx`): its status and its view of the table. -/
structure Tx where
  status : TxStatus
  view : List User
deriving DecidableEq

/-- Calls made to the database, as they appear in `TransferBalance`. -/
inductive DbCall where
  | beginx
  | getBalance (id : Int)
  | getExists (id : Int)
  | execDebit (amount : Float64) (id : Int)
  | execCredit (amount : Float64) (id : Int)
  | commit
  | rollback
deriving DecidableEq

/-- Fault plan of one `TransferBalance` call: for each database call the
error it ends with, `none` when the database executes it. -/
structure Faults where
  beginx : Option DriverError
  getBalance : Option DriverError
  getExists : Option DriverError
  execDebit : Option DriverError
  execCredit : Option DriverError
  commit : Option DriverError
deriving DecidableEq

/-- Fault plan of a run in which the database executes every call. -/
def noFaults : Faults :=
  { beginx := none, getBalance := none, getExists := none,
    execDebit := none, execCredit := none, commit := none }

/-- The error `sql.ErrNoRows`. -/
def errNoRows : DriverError := "sql: no rows in result set"

/-- Call `db.Beginx()`: a new transaction on the committed table. -/
def Beginx (db : DB) (f : Faults) : Except DriverError Tx :=
  match f.beginx with
  | some e => .error e
  | none => .ok { status := .active, view := db.users }

/-- Call `tx.Get(&fromBalance, "SELECT balance FROM users WHERE id = $1", fromID)`. -/
def Tx.getBalance (tx : Tx) (f : Faults) (id : Int) : Except DriverError Float64 :=
  match f.getBalance with
  | some e => .error e
  | none =>
    match selectBalance tx.view id with
    | none => .error errNoRows
    | some b => .ok b.toFloat64

/-- Call `tx.Get(&receiverExists, "SELECT EXISTS(...)", toID)`. -/
def Tx.getExists (tx : Tx) (f : Faults) (id : Int) : Except DriverError Bool :=
  match f.getExists with
  | some e => .error e
  | none => .ok (selectExists tx.view id)

/-- Call `tx.Exec("UPDATE users SET balance = balance - $1 WHERE id = $2", amount,
fromID)`. -/
def Tx.execDebit (tx : Tx) (f : Faults) (amount : Float64) (id : Int) :
    Except DriverError Tx :=
  match f.execDebit with
  | some e => .error e
  | none =>
    match updateDebit tx.view amount id with
    | .error e => .error e
    | .ok view => .ok { tx with view := view }

/-- Call `tx.Exec("UPDATE users SET balance = balance + $1 WHERE id = $2", amount,
toID)`. -/
def Tx.execCredit (tx : Tx) (f : Faults) (amount : Float64) (id : Int) :
    Except DriverError Tx :=
  match f.execCredit with
  | some e => .error e
  | none =>
    match updateCredit tx.view amount id with
    | .error e => .error e
    | .ok view => .ok { tx with view := view }

/-- Call `tx.Rollback()`: an active transaction is abandoned; on a finished
handle the call does nothing (`sql.ErrTxDone`, which the caller drops). -/
def Tx.Rollback (tx : Tx) : Tx :=
  match tx.status with
  | .active => { tx with status := .rolledBack }
  | _ => tx

/-- Call `tx.Commit()`: installs the view of the transaction as the committed
table.  When the commit fails nothing is installed and the handle is
finished, the database having aborted the transaction. -/
def Tx.Commit (tx : Tx) (db : DB) (f : Faults) : Option DriverError × Tx × DB :=
  match f.commit with
  | some e => (some e, { tx with status := .rolledBack }, db)
  | none => (none, { tx with status := .committed }, { db with users := tx.view })

/-! ## The verbs `%.2f` and `%d` -/

/-- The quotient `n / d` rounded to the nearest integer, a half going to the
even neighbour. -/
def roundHalfEven (n d : Nat) : Nat :=
  if 2 * (n % d) < d then n / d
  else if d < 2 * (n % d) then n / d + 1
  else if (n / d) % 2 = 0 then n / d else n / d + 1

/-- Search, from `s` upwards, of the binary scale at which `n / d` has a
mantissa of 53 bits. -/
def scaleUp (n d : Nat) : Nat → Nat → Nat
  | 0, s => s
  | fuel + 1, s => if 2 ^ 52 * d ≤ n * 2 ^ s then s else scaleUp n d fuel (s + 1)

/-- Search, from `e` upwards, of the binary exponent at which `n / d` has a
mantissa of 53 bits. -/
def scaleDown (n d : Nat) : Nat → Nat → Nat
  | 0, e => e
  | fuel + 1, e => if n < 2 ^ 53 * d * 2 ^ e then e else scaleDown n d fuel (e + 1)

/-- The `float64` nearest to `n / d` (with `n` and `d` positive, within the
range of `float64`), as a fraction whose denominator is a power of two: a
mantissa of 53 bits, of fewer bits below `2 ^ -1022`, ties to even. -/
def nearestFloat64 (n d : Nat) : Nat × Nat :=
  if n < 2 ^ 52 * d then
    (roundHalfEven (n * 2 ^ scaleUp n d 1074 0) d, 2 ^ scaleUp n d 1074 0)
  else
    (roundHalfEven n (d * 2 ^ scaleDown n d 971 0) * 2 ^ scaleDown n d 971 0, 1)

/-- Hundredths printed by `%.2f` for the `float64` written `n / d`: the
binary value, rounded to two decimals, ties to even. -/
def fixed2 (n d : Nat) : Nat :=
  if n = 0 then 0
  else roundHalfEven (100 * (nearestFloat64 n d).1) (nearestFloat64 n d).2

/-- Two decimal digits of a number below 100. -/
def twoDigits (n : Nat) : String :=
  if n < 10 then "0" ++ toString n else toString n

/-- The verb `%.2f`. -/
def fmtFloat64 : Float64 → String
  | .nan => "NaN"
  | .posInf => "+Inf"
  | .negInf => "-Inf"
  | .fin u k =>
    (if u < 0 then "-" else "") ++ toString (fixed2 u.natAbs (10 ^ k) / 100) ++ "." ++
      twoDigits (fixed2 u.natAbs (10 ^ k) % 100)

/-- The verb `%d`. -/
def fmtInt (n : Int) : String := toString n

/-! ## Errors returned by `TransferBalance` -/

/-- The values built by the `fmt.Errorf` calls of `TransferBalance`. -/
inductive TransferError where
  | amountNotPositive
  | beginFailed (cause : DriverError)
  | senderNotFound (cause : DriverError)
  | insufficientBalance (fromBalance amount : Float64)
  | checkReceiverFailed (cause : DriverError)
  | receiverNotFound (toID : Int)
  | deductFailed (cause : DriverError)
  | addFailed (cause : DriverError)
  | commitFailed (cause : DriverError)
deriving DecidableEq

/-- Text of the error (`err.Error()`). -/
def TransferError.Error : TransferError → String
  | .amountNotPositive => "amount must be positive"
  | .beginFailed cause => "failed to begin transaction: " ++ cause
  | .senderNotFound cause => "sender not found: " ++ cause
  | .insufficientBalance fromBalance amount =>
      "insufficient balance: sender has $" ++ fmtFloat64 fromBalance ++
        ", tried to send $" ++ fmtFloat64 amount
  | .checkReceiverFailed cause => "failed to check receiver: " ++ cause
  | .receiverNotFound toID => "receiver with ID " ++ fmtInt toID ++ " not found"
  | .deductFailed cause => "failed to deduct from sender: " ++ cause
  | .addFailed cause => "failed to add to receiver: " ++ cause
  | .commitFailed cause => "failed to commit transaction: " ++ cause

/-! ## `TransferBalance` -/

/-- What a call of `TransferBalance` leaves behind. -/
structure TransferResult where
  /-- The returned error, `none` for `nil`. -/
  ret : Option TransferError
  /-- The database after the call. -/
  db : DB
  /-- The transaction handle at return, `none` when none was opened. -/
  tx : Option Tx
  /-- The database calls issued, in order. -/
  calls : List DbCall
deriving DecidableEq

/-- A `return` of `TransferBalance` after the transaction was opened.  The
deferred function runs first: `if err != nil { tx.Rollback() }`, where
`err` is the local variable, not the value being returned. -/
def returnDeferred (db : DB) (tx : Tx) (calls : List DbCall)
    (err : Option DriverError) (ret : Option TransferError) : TransferResult :=
  match err with
  | some _ => { ret := ret, db := db, tx := some tx.Rollback, calls := calls ++ [.rollback] }
  | none => { ret := ret, db := db, tx := some tx, calls := calls }

/-- The function `TransferBalance(db, fromID, toID, amount)`. -/
def TransferBalance (db : DB) (f : Faults) (fromID toID : Int) (amount : Float64) :
    TransferResult :=
  -- Validate amount
  if amount ≤ 0 then
    { ret := some .amountNotPositive, db := db, tx := none, calls := [] }
  else
    -- Start a transaction
    match Beginx db f with
    | .error e => { ret := some (.beginFailed e), db := db, tx := none, calls := [.beginx] }
    | .ok tx =>
      -- 1. Check if sender exists and has sufficient balance
      let calls := [.beginx, .getBalance fromID]
      match tx.getBalance f fromID with
      | .error e => returnDeferred db tx calls (some e) (some (.senderNotFound e))
      | .ok fromBalance =>
        if fromBalance < amount then
          returnDeferred db tx calls none (some (.insufficientBalance fromBalance amount))
        else
          -- 2. Check if receiver exists
          let calls := calls ++ [.getExists toID]
          match tx.getExists f toID with
          | .error e => returnDeferred db tx calls (some e) (some (.checkReceiverFailed e))
          | .ok receiverExists =>
            if !receiverExists then
              returnDeferred db tx calls none (some (.receiverNotFound toID))
            else
              -- 3. Decrease balance from sender
              let calls := calls ++ [.execDebit amount fromID]
              match tx.execDebit f amount fromID with
              | .error e => returnDeferred db tx calls (some e) (some (.deductFailed e))
              | .ok tx =>
                -- 4. Increase balance for receiver
                let calls := calls ++ [.execCredit amount toID]
                match tx.execCredit f amount toID with
                | .error e => returnDeferred db tx calls (some e) (some (.addFailed e))
                | .ok tx =>
                  -- Commit transaction
                  let calls := calls ++ [.commit]
                  match tx.Commit db f with
                  | (some e, tx, db) =>
                    returnDeferred db tx calls (some e) (some (.commitFailed e))
                  | (none, tx, db) => returnDeferred db tx calls none none

/-- Conditions under which a call reads the balance `b` of the sender: the
amount is not refused by the validation, the transaction is opened and the
query is executed and finds the row. -/
def readsBalance (db : DB) (f : Faults) (fromID : Int) (amount : Float64) (b : Numeric) :
    Prop :=
  ¬ amount ≤ 0 ∧ f.beginx = none ∧ f.getBalance = none ∧
    selectBalance db.users fromID = some b

/-- Conditions under which a call reaches its first `UPDATE`: the balance
`b` of the sender is read and is not below the amount, and the receiver is
looked up and found. -/
def reachesUpdates (db : DB) (f : Faults) (fromID toID : Int) (amount : Float64)
    (b : Numeric) : Prop :=
  readsBalance db f fromID amount b ∧ ¬ b.toFloat64 < amount ∧ f.getExists = none ∧
    selectExists db.users toID = true

/-! ## `InsertUser` -/

/-- The value built by the `fmt.Errorf` call of `InsertUser`. -/
inductive InsertError where
  | insertFailed (cause : DriverError)
deriving DecidableEq

/-- Text of the error (`err.Error()`). -/
def InsertError.Error : InsertError → String
  | .insertFailed cause => "failed to insert user: " ++ cause

/-- Refusal of a row whose `id` is already in the table. -/
def errDuplicateID : DriverError :=
  "pq: duplicate key value violates unique constraint \"users_pkey\""

/-- Refusal of a row whose `email` is already in the table. -/
def errDuplicateEmail : DriverError :=
  "pq: duplicate key value violates unique constraint \"users_email_key\""

/-- The statement `INSERT INTO users (name, email, balance) VALUES (:name, :email, :balance)`
run by `db.NamedExec(query, user)`.  The column `id` is not in the column
list: it takes the next value of the sequence, which is used up whether or
not the row is stored.  `fault` is the failure of the call for a reason
other than the two key constraints. -/
def namedExecInsert (db : DB) (fault : Option DriverError) (user : User) :
    Option DriverError × DB :=
  match fault with
  | some e => (some e, db)
  | none =>
    let row : User :=
      { ID := db.nextID, Name := user.Name, Email := user.Email, Balance := user.Balance }
    if db.users.any (fun u => decide (u.ID = row.ID)) then
      (some errDuplicateID, { db with nextID := db.nextID + 1 })
    else if db.users.any (fun u => decide (u.Email = row.Email)) then
      (some errDuplicateEmail, { db with nextID := db.nextID + 1 })
    else
      (none, { users := db.users ++ [row], nextID := db.nextID + 1 })

/-- The function `InsertUser(db, user)`. -/
def InsertUser (db : DB) (fault : Option DriverError) (user : User) :
    Option InsertError × DB :=
  match namedExecInsert db fault user with
  | (some e, db) => (some (.insertFailed e), db)
  | (none, db) => (none, db)

/-- Fault plan in which the transaction cannot be opened. -/
def beginFails : Faults :=
  { noFaults with beginx := some "driver: bad connection" }

/-- Fault plan in which the debit is executed and the credit fails. -/
def creditFails : Faults :=
  { noFaults with execCredit := some "pq: numeric field overflow" }

/-- Fault plan in which both updates are executed and the commit fails. -/
def commitFails : Faults :=
  { noFaults with commit := some "driver: bad connection" }

/-- Table with a sender whose balance is zero. -/
def emptyPurseDB : DB :=
  { users := [ { ID := 1, Name := "Ann", Email := "ann@example.com", Balance := 0 },
               { ID := 2, Name := "Ben", Email := "ben@example.com", Balance := 500 } ],
    nextID := 3 }

/-- Table with balances that are not whole units. -/
def oddCentsDB : DB :=
  { users := [ { ID := 1, Name := "Ann", Email := "ann@example.com", Balance := 123456 },
               { ID := 2, Name := "Ben", Email := "ben@example.com", Balance := 7 } ],
    nextID := 3 }

namespace Verify

/-- Queries sent by the verifier. -/
inductive Query where
  | tableExists (table : String)
  | countRows (table : String)
  | columns
  | migration
deriving DecidableEq

/-- What the database answers to the verifier: the outcome of opening and
pinging the connection and of each query. -/
structure Env where
  openErr : Option DriverError
  pingErr : Option DriverError
  tableExists : String → Except DriverError Bool
  countRows : String → Except DriverError Int
  columns : Except DriverError (List (String × String × String))
  migration : Except DriverError (Int × Bool)

/-- What the verifier does, in order. -/
inductive Event where
  | query (q : Query)
  | print (text : String)
  | log (text : String)
deriving DecidableEq

/-- A finished run of the verifier: exit status and trace. -/
structure Run where
  exitCode : Nat
  trace : List Event
deriving DecidableEq

/-- The slice `tables`. -/
def tables : List String := ["users", "categories", "expenses"]

/-- Body of the loop over `tables`. -/
def checkTable (env : Env) (table : String) : List Event :=
  [.query (.tableExists table)] ++
  match env.tableExists table with
  | .error err => [.log ("Failed to check table " ++ table ++ ": " ++ err)]
  | .ok true =>
    [.print ("Table " ++ table ++ " exists\n"), .query (.countRows table)] ++
    (match env.countRows table with
     | .error err => [.log ("Could not count rows in " ++ table ++ ": " ++ err)]
     | .ok count => [.print ("   Rows in " ++ table ++ ": " ++ toString count ++ "\n")])
  | .ok false => [.print ("Table " ++ table ++ " does not exist\n")]

/-- The check of the structure of `users`. -/
def checkColumns (env : Env) : List Event :=
  [.print "\nChecking users table structure:\n", .query .columns] ++
  match env.columns with
  | .error err => [.log ("Failed to check users structure: " ++ err)]
  | .ok rows =>
    rows.map (fun r => .print ("   " ++ r.1 ++ ": " ++ r.2.1 ++ " (" ++ r.2.2 ++ ")\n"))

/-- The last line printed by a run that reaches the end of `main`. -/
def finalLine : Event :=
  .print "\nAll migrations applied successfully! Database schema is ready.\n"

/-- The function `main` of the verifier. -/
def main (env : Env) : Run :=
  match env.openErr with
  | some err => { exitCode := 1, trace := [.log ("Failed to connect to database:" ++ err)] }
  | none =>
    match env.pingErr with
    | some err => { exitCode := 1, trace := [.log ("Failed to ping database:" ++ err)] }
    | none =>
      let trace :=
        [.print "Successfully connected to database\n"] ++
        (tables.map (checkTable env)).flatten ++ checkColumns env ++ [.query .migration]
      match env.migration with
      | .error err =>
        { exitCode := 0,
          trace := trace ++ [.log ("Could not check migration version: " ++ err), finalLine] }
      | .ok (version, dirty) =>
        let trace := trace ++
          [.print ("\nMigration version: " ++ toString version ++ ", dirty: " ++
            toString dirty ++ "\n")]
        if dirty then
          { exitCode := 1,
            trace := trace ++ [.print "Database is in dirty state - some migration failed\n"] }
        else
          { exitCode := 0, trace := trace ++ [finalLine] }

/-- A reachable database in which every check of the verifier fails. -/
def brokenEnv : Env :=
  { openErr := none, pingErr := none,
    tableExists := fun _ => .error "pq: permission denied",
    countRows := fun _ => .error "pq: permission denied",
    columns := .error "pq: permission denied",
    migration := .error "pq: relation \"schema_migrations\" does not exist" }

/-- A reachable database whose migration marker is dirty. -/
def dirtyEnv : Env :=
  { openErr := none, pingErr := none,
    tableExists := fun table => .ok (decide (table = "users")),
    countRows := fun _ => .ok 4,
    columns := .ok [("id", "integer", "NO"), ("email", "character varying", "NO")],
    migration := .ok (3, true) }

end Verify


/-! ## Auxiliary facts: arithmetic -/

theorem pow10_pos (k : Nat) : 0 < pow10 k := by
  unfold pow10
  exact_mod_cast Nat.pow_pos (by decide : 0 < 10)

/-- Rounding an exact multiple gives the quotient. -/
theorem roundHalfAway_mul (m : Int) (d : Nat) (hd : 0 < d) :
    roundHalfAway (m * (d : Int)) d = m := by
  have hdiv : (2 * (m.natAbs * d) + d) / (2 * d) = m.natAbs := by
    have h1 : 2 * (m.natAbs * d) + d = d + 2 * d * m.natAbs := by ring
    rw [h1, Nat.add_mul_div_left _ _ (by omega : 0 < 2 * d), Nat.div_eq_of_lt (by omega)]
    simp
  have hd' : (0 : Int) < (d : Int) := by exact_mod_cast hd
  unfold roundHalfAway
  rw [Int.natAbs_mul, Int.natAbs_ofNat, hdiv]
  by_cases hm : m < 0
  · have : m * (d : Int) < 0 := Int.mul_neg_of_neg_of_pos hm hd'
    rw [if_pos this]
    omega
  · have : ¬ m * (d : Int) < 0 := by
      have := Int.mul_nonneg (not_lt.mp hm) (le_of_lt hd')
      omega
    rw [if_neg this]
    omega

/-- Rounding keeps a quotient that is not negative from becoming negative. -/
theorem roundHalfAway_nonneg (n : Int) (d : Nat) (hn : 0 ≤ n) : 0 ≤ roundHalfAway n d := by
  unfold roundHalfAway
  rw [if_neg (not_lt.mpr hn)]
  exact Int.ofNat_nonneg _

/-- The cents of a whole number of cents, as an equation on the decimal. -/
theorem cents?_eq (amount : Float64) (a : Int) (h : amount.cents? = some a) :
    ∃ u k, amount = .fin u k ∧ 100 * u = a * pow10 k := by
  cases amount with
  | nan => simp [Float64.cents?] at h
  | posInf => simp [Float64.cents?] at h
  | negInf => simp [Float64.cents?] at h
  | fin u k =>
    refine ⟨u, k, rfl, ?_⟩
    simp only [Float64.cents?] at h
    split at h
    · rename_i hmod
      have ha : 100 * u / pow10 k = a := by simpa using h
      rw [← ha, Int.ediv_mul_cancel (Int.dvd_of_emod_eq_zero hmod)]
    · simp at h

/-- Adding a whole number of cents is exact. -/
theorem add_cents (b : Numeric) (amount : Float64) (a : Int) (h : amount.cents? = some a) :
    b.add amount = .ok (b.shift a) := by
  obtain ⟨u, k, rfl, hu⟩ := cents?_eq amount a h
  cases b with
  | nan => rfl
  | cents c =>
    simp only [Numeric.add, Numeric.shift]
    have h1 : c * pow10 k + 100 * u = (c + a) * ((10 ^ k : Nat) : Int) := by
      rw [hu]; unfold pow10; ring
    rw [h1, roundHalfAway_mul _ _ (Nat.pow_pos (by decide))]

/-- Subtracting a whole number of cents is exact. -/
theorem sub_cents (b : Numeric) (amount : Float64) (a : Int) (h : amount.cents? = some a) :
    b.sub amount = .ok (b.shift (-a)) := by
  obtain ⟨u, k, rfl, hu⟩ := cents?_eq amount a h
  cases b with
  | nan => rfl
  | cents c =>
    simp only [Numeric.sub, Numeric.shift]
    have h1 : c * pow10 k - 100 * u = (c + -a) * ((10 ^ k : Nat) : Int) := by
      rw [hu]; unfold pow10; ring
    rw [h1, roundHalfAway_mul _ _ (Nat.pow_pos (by decide))]

/-- Order of a balance and a whole number of cents. -/
theorem lt_cents (b : Int) (amount : Float64) (a : Int) (h : amount.cents? = some a) :
    (Numeric.cents b).toFloat64 < amount ↔ b < a := by
  obtain ⟨u, k, rfl, hu⟩ := cents?_eq amount a h
  have hp := pow10_pos k
  show (Float64.lt (.fin b 2) (.fin u k) = true) ↔ b < a
  simp only [Float64.lt, decide_eq_true_eq]
  have h2 : u * pow10 2 = a * pow10 k := by
    rw [← hu]; unfold pow10; norm_num; ring
  rw [h2]
  constructor
  · intro hlt
    exact lt_of_mul_lt_mul_right hlt (le_of_lt hp)
  · intro hlt
    exact mul_lt_mul_of_pos_right hlt hp

/-- Sign of a whole number of cents. -/
theorem le_zero_cents (amount : Float64) (a : Int) (h : amount.cents? = some a) :
    amount ≤ 0 ↔ a ≤ 0 := by
  obtain ⟨u, k, rfl, hu⟩ := cents?_eq amount a h
  have hp := pow10_pos k
  show (Float64.le (.fin u k) (.fin 0 0) = true) ↔ a ≤ 0
  simp only [Float64.le, decide_eq_true_eq]
  have h1 : pow10 0 = 1 := by unfold pow10; norm_num
  rw [h1, mul_one, zero_mul]
  constructor
  · intro hle
    by_contra hpos
    have : 0 < a * pow10 k := Int.mul_pos (not_le.mp hpos) hp
    omega
  · intro hle
    have : a * pow10 k ≤ 0 := Int.mul_nonpos_of_nonpos_of_nonneg hle (le_of_lt hp)
    omega

/-! ## Auxiliary facts: the two updates -/

/-- A statement whose rows are all accepted yields the table row by row. -/
theorem mapM_ok (f : User → Except DriverError User) (g : User → User) (users : List User)
    (h : ∀ u ∈ users, f u = .ok (g u)) : users.mapM f = .ok (users.map g) := by
  induction users with
  | nil => rfl
  | cons u us ih =>
    have hu := h u (List.mem_cons_self u us)
    have hus := ih (fun v hv => h v (List.mem_cons_of_mem u hv))
    simp only [List.mapM_cons, hu, hus, List.map_cons]
    rfl

/-- Every row of the table after an update comes from a row before it. -/
theorem mapM_mem (f : User → Except DriverError User) (users res : List User)
    (h : users.mapM f = .ok res) : ∀ r ∈ res, ∃ u ∈ users, f u = .ok r := by
  induction users generalizing res with
  | nil =>
    have : res = [] := by
      have h1 : (Except.ok [] : Except DriverError (List User)) = .ok res := h
      cases h1; rfl
    subst this
    intro r hr; simp at hr
  | cons u us ih =>
    simp only [List.mapM_cons] at h
    cases hu : f u with
    | error e => rw [hu] at h; cases h
    | ok r0 =>
      cases hus : us.mapM f with
      | error e => rw [hu, hus] at h; cases h
      | ok rs =>
        rw [hu, hus] at h
        have hres : res = r0 :: rs := by
          have h1 : (Except.ok (r0 :: rs) : Except DriverError (List User)) = .ok res := h
          cases h1; rfl
        subst hres
        intro r hr
        rcases List.mem_cons.mp hr with rfl | htail
        · exact ⟨u, List.mem_cons_self u us, hu⟩
        · obtain ⟨v, hv, hfv⟩ := ih rs hus r htail
          exact ⟨v, List.mem_cons_of_mem u hv, hfv⟩

/-- An update keeps what it keeps row by row. -/
theorem mapM_keeps {α : Type} (f : User → Except DriverError User) (key : User → α)
    (hf : ∀ u r, f u = .ok r → key r = key u) (users res : List User)
    (h : users.mapM f = .ok res) : res.map key = users.map key := by
  induction users generalizing res with
  | nil =>
    have h1 : (Except.ok [] : Except DriverError (List User)) = .ok res := h
    cases h1; rfl
  | cons u us ih =>
    simp only [List.mapM_cons] at h
    cases hu : f u with
    | error e => rw [hu] at h; cases h
    | ok r0 =>
      cases hus : us.mapM f with
      | error e => rw [hu, hus] at h; cases h
      | ok rs =>
        rw [hu, hus] at h
        have h1 : (Except.ok (r0 :: rs) : Except DriverError (List User)) = .ok res := h
        cases h1
        simp only [List.map_cons, hf u r0 hu, ih rs hus]

/-- A debited row keeps its identifier and its email. -/
theorem debitRow_keys (amount : Float64) (id : Int) (u r : User)
    (h : debitRow amount id u = .ok r) : r.ID = u.ID ∧ r.Email = u.Email := by
  unfold debitRow at h
  split at h
  · cases hb : u.Balance.sub amount with
    | error e => rw [hb] at h; cases h
    | ok b => rw [hb] at h; cases h; exact ⟨rfl, rfl⟩
  · cases h; exact ⟨rfl, rfl⟩

/-- A credited row keeps its identifier and its email. -/
theorem creditRow_keys (amount : Float64) (id : Int) (u r : User)
    (h : creditRow amount id u = .ok r) : r.ID = u.ID ∧ r.Email = u.Email := by
  unfold creditRow at h
  split at h
  · cases hb : u.Balance.add amount with
    | error e => rw [hb] at h; cases h
    | ok b => rw [hb] at h; cases h; exact ⟨rfl, rfl⟩
  · cases h; exact ⟨rfl, rfl⟩

/-- A debit changes no identifier and no email. -/
theorem updateDebit_keys (users res : List User) (amount : Float64) (id : Int)
    (h : updateDebit users amount id = .ok res) :
    res.map User.ID = users.map User.ID ∧ res.map User.Email = users.map User.Email :=
  ⟨mapM_keeps _ User.ID (fun u r hr => (debitRow_keys amount id u r hr).1) users res h,
   mapM_keeps _ User.Email (fun u r hr => (debitRow_keys amount id u r hr).2) users res h⟩

/-- A credit changes no identifier and no email. -/
theorem updateCredit_keys (users res : List User) (amount : Float64) (id : Int)
    (h : updateCredit users amount id = .ok res) :
    res.map User.ID = users.map User.ID ∧ res.map User.Email = users.map User.Email :=
  ⟨mapM_keeps _ User.ID (fun u r hr => (creditRow_keys amount id u r hr).1) users res h,
   mapM_keeps _ User.Email (fun u r hr => (creditRow_keys amount id u r hr).2) users res h⟩

/-- A credit of a whole number of cents, row by row. -/
theorem updateCredit_cents (users : List User) (amount : Float64) (a : Int) (id : Int)
    (h : amount.cents? = some a) :
    updateCredit users amount id = .ok (shiftRows users a id) := by
  unfold updateCredit shiftRows
  apply mapM_ok
  intro u _
  unfold creditRow
  by_cases hid : u.ID = id
  · rw [if_pos hid, if_pos hid, add_cents _ _ _ h]; rfl
  · rw [if_neg hid, if_neg hid]

/-- A debit of a whole number of cents, row by row. -/
theorem updateDebit_cents (users : List User) (amount : Float64) (a : Int) (id : Int)
    (h : amount.cents? = some a) :
    updateDebit users amount id = .ok (shiftRows users (-a) id) := by
  unfold updateDebit shiftRows
  apply mapM_ok
  intro u _
  unfold debitRow
  by_cases hid : u.ID = id
  · rw [if_pos hid, if_pos hid, sub_cents _ _ _ h]; rfl
  · rw [if_neg hid, if_neg hid]

/-- Balance read after rows were moved. -/
theorem selectBalance_shiftRows (users : List User) (a : Int) (id id1 : Int) :
    selectBalance (shiftRows users a id) id1 =
      (selectBalance users id1).map (fun b => if id1 = id then b.shift a else b) := by
  induction users with
  | nil => rfl
  | cons u us ih =>
    simp only [selectBalance, shiftRows, List.map_cons] at ih ⊢
    by_cases h1 : u.ID = id1
    · by_cases h : u.ID = id
      · have h2 : id1 = id := by rw [← h1, h]
        simp [List.find?_cons, h1, h, h2]
      · have h2 : ¬ id1 = id := by rw [← h1]; exact h
        simp [List.find?_cons, h1, h, h2]
    · have h1d : decide (u.ID = id1) = false := by simp [h1]
      by_cases h : u.ID = id
      · simp only [List.find?_cons, if_pos h, h1d]
        exact ih
      · simp only [List.find?_cons, if_neg h, h1d]
        exact ih

/-- Under the primary key, the balance read for an identifier is the balance
of every row carrying it. -/
theorem balance_of_selectBalance (users : List User) (id : Int) (b : Numeric)
    (hu : uniqueIDs users) (h : selectBalance users id = some b) :
    ∀ u ∈ users, u.ID = id → u.Balance = b := by
  induction users with
  | nil => intro u hmem; simp at hmem
  | cons v vs ih =>
    have hnd : v.ID ∉ vs.map User.ID ∧ uniqueIDs vs := by
      simpa [uniqueIDs] using hu
    intro u hmem hid
    by_cases hv : v.ID = id
    · have hb : v.Balance = b := by
        simpa [selectBalance, List.find?_cons, hv] using h
      rcases List.mem_cons.mp hmem with rfl | htail
      · exact hb
      · exact absurd (List.mem_map.mpr ⟨u, htail, by rw [hid, hv]⟩) hnd.1
    · have h1 : selectBalance vs id = some b := by
        simpa [selectBalance, List.find?_cons, hv] using h
      rcases List.mem_cons.mp hmem with rfl | htail
      · exact absurd hid hv
      · exact ih hnd.2 h1 u htail hid

/-- Moving a value there and back. -/
theorem shift_shift_neg (x : Numeric) (a : Int) : (x.shift (-a)).shift a = x := by
  cases x <;> simp [Numeric.shift]

/-- The two updates of a transfer of a whole number of cents, row by row. -/
theorem shiftRows_shiftRows (users : List User) (a : Int) (fromID toID : Int)
    (hne : fromID ≠ toID) :
    shiftRows (shiftRows users (-a) fromID) a toID =
      users.map (fun u =>
        { u with Balance :=
            if u.ID = fromID then u.Balance.shift (-a)
            else if u.ID = toID then u.Balance.shift a else u.Balance }) := by
  simp only [shiftRows, List.map_map]
  apply List.map_congr_left
  intro u _
  by_cases h1 : u.ID = fromID
  · have h2 : ¬ fromID = toID := hne
    simp [h1, h2]
  · have h3 : ¬ toID = fromID := fun h => hne h.symm
    by_cases h2 : u.ID = toID
    · simp [h2, h3]
    · simp [h1, h2]

/-- The two updates of a transfer of a whole number of cents to oneself
leave the table as it was. -/
theorem shiftRows_self (users : List User) (a : Int) (id : Int) :
    shiftRows (shiftRows users (-a) id) a id = users := by
  simp only [shiftRows, List.map_map]
  conv_rhs => rw [← List.map_id users]
  apply List.map_congr_left
  intro u _
  by_cases h : u.ID = id
  · cases u with
    | mk uid name email balance =>
      have h1 : uid = id := h
      subst h1
      simp [shift_shift_neg]
  · simp [h]

/-! ## Auxiliary facts: `TransferBalance` -/

/-- The exit paths of `TransferBalance`, each with its condition and with
what it leaves behind. -/
theorem transferBalance_paths (db : DB) (f : Faults) (fromID toID : Int)
    (amount : Float64) :
    (amount ≤ 0 ∧
      TransferBalance db f fromID toID amount =
        { ret := some .amountNotPositive, db := db, tx := none, calls := [] }) ∨
    (∃ e, ¬ amount ≤ 0 ∧ f.beginx = some e ∧
      TransferBalance db f fromID toID amount =
        { ret := some (.beginFailed e), db := db, tx := none, calls := [.beginx] }) ∨
    (∃ e, ¬ amount ≤ 0 ∧ f.beginx = none ∧
      (f.getBalance = some e ∨
        (f.getBalance = none ∧ selectBalance db.users fromID = none ∧ e = errNoRows)) ∧
      TransferBalance db f fromID toID amount =
        { ret := some (.senderNotFound e), db := db,
          tx := some { status := .rolledBack, view := db.users },
          calls := [.beginx, .getBalance fromID, .rollback] }) ∨
    (∃ b, readsBalance db f fromID amount b ∧ b.toFloat64 < amount ∧
      TransferBalance db f fromID toID amount =
        { ret := some (.insufficientBalance b.toFloat64 amount), db := db,
          tx := some { status := .active, view := db.users },
          calls := [.beginx, .getBalance fromID] }) ∨
    (∃ b e, readsBalance db f fromID amount b ∧ ¬ b.toFloat64 < amount ∧
      f.getExists = some e ∧
      TransferBalance db f fromID toID amount =
        { ret := some (.checkReceiverFailed e), db := db,
          tx := some { status := .rolledBack, view := db.users },
          calls := [.beginx, .getBalance fromID, .getExists toID, .rollback] }) ∨
    (∃ b, readsBalance db f fromID amount b ∧ ¬ b.toFloat64 < amount ∧
      f.getExists = none ∧ selectExists db.users toID = false ∧
      TransferBalance db f fromID toID amount =
        { ret := some (.receiverNotFound toID), db := db,
          tx := some { status := .active, view := db.users },
          calls := [.beginx, .getBalance fromID, .getExists toID] }) ∨
    (∃ b e, reachesUpdates db f fromID toID amount b ∧
      (f.execDebit = some e ∨
        (f.execDebit = none ∧ updateDebit db.users amount fromID = .error e)) ∧
      TransferBalance db f fromID toID amount =
        { ret := some (.deductFailed e), db := db,
          tx := some { status := .rolledBack, view := db.users },
          calls := [.beginx, .getBalance fromID, .getExists toID,
            .execDebit amount fromID, .rollback] }) ∨
    (∃ b debited e, reachesUpdates db f fromID toID amount b ∧ f.execDebit = none ∧
      updateDebit db.users amount fromID = .ok debited ∧
      (f.execCredit = some e ∨
        (f.execCredit = none ∧ updateCredit debited amount toID = .error e)) ∧
      TransferBalance db f fromID toID amount =
        { ret := some (.addFailed e), db := db,
          tx := some { status := .rolledBack, view := debited },
          calls := [.beginx, .getBalance fromID, .getExists toID,
            .execDebit amount fromID, .execCredit amount toID, .rollback] }) ∨
    (∃ b debited credited e, reachesUpdates db f fromID toID amount b ∧
      f.execDebit = none ∧ updateDebit db.users amount fromID = .ok debited ∧
      f.execCredit = none ∧ updateCredit debited amount toID = .ok credited ∧
      f.commit = some e ∧
      TransferBalance db f fromID toID amount =
        { ret := some (.commitFailed e), db := db,
          tx := some { status := .rolledBack, view := credited },
          calls := [.beginx, .getBalance fromID, .getExists toID,
            .execDebit amount fromID, .execCredit amount toID, .commit, .rollback] }) ∨
    (∃ b debited credited, reachesUpdates db f fromID toID amount b ∧
      f.execDebit = none ∧ updateDebit db.users amount fromID = .ok debited ∧
      f.execCredit = none ∧ updateCredit debited amount toID = .ok credited ∧
      f.commit = none ∧
      TransferBalance db f fromID toID amount =
        { ret := none, db := { db with users := credited },
          tx := some { status := .committed, view := credited },
          calls := [.beginx, .getBalance fromID, .getExists toID,
            .execDebit amount fromID, .execCredit amount toID, .commit] }) := by
  by_cases h0 : amount ≤ 0
  · left
    simp [TransferBalance, Beginx, Tx.getBalance, Tx.getExists, Tx.execDebit, Tx.execCredit,
      Tx.Commit, returnDeferred, Tx.Rollback, readsBalance, reachesUpdates, h0]
  right
  cases hb : f.beginx with
  | some e =>
    left; refine ⟨e, ?_⟩
    simp [TransferBalance, Beginx, Tx.getBalance, Tx.getExists, Tx.execDebit, Tx.execCredit,
      Tx.Commit, returnDeferred, Tx.Rollback, readsBalance, reachesUpdates, h0, hb]
  | none =>
  right
  cases hg : f.getBalance with
  | some e =>
    left; refine ⟨e, ?_⟩
    simp [TransferBalance, Beginx, Tx.getBalance, Tx.getExists, Tx.execDebit, Tx.execCredit,
      Tx.Commit, returnDeferred, Tx.Rollback, readsBalance, reachesUpdates, h0, hb, hg]
  | none =>
  cases hsel : selectBalance db.users fromID with
  | none =>
    left; refine ⟨errNoRows, ?_⟩
    simp [TransferBalance, Beginx, Tx.getBalance, Tx.getExists, Tx.execDebit, Tx.execCredit,
      Tx.Commit, returnDeferred, Tx.Rollback, readsBalance, reachesUpdates, h0, hb, hg, hsel]
  | some b =>
  right
  by_cases hlt : b.toFloat64 < amount
  · left; refine ⟨b, ?_⟩
    simp [TransferBalance, Beginx, Tx.getBalance, Tx.getExists, Tx.execDebit, Tx.execCredit,
      Tx.Commit, returnDeferred, Tx.Rollback, readsBalance, reachesUpdates, h0, hb, hg, hsel, hlt]
  right
  cases he : f.getExists with
  | some e =>
    left; refine ⟨b, e, ?_⟩
    simp [TransferBalance, Beginx, Tx.getBalance, Tx.getExists, Tx.execDebit, Tx.execCredit,
      Tx.Commit, returnDeferred, Tx.Rollback, readsBalance, reachesUpdates, h0, hb, hg, hsel, hlt, he]
  | none =>
  right
  cases hex : selectExists db.users toID with
  | false =>
    left; refine ⟨b, ?_⟩
    simp [TransferBalance, Beginx, Tx.getBalance, Tx.getExists, Tx.execDebit, Tx.execCredit,
      Tx.Commit, returnDeferred, Tx.Rollback, readsBalance, reachesUpdates, h0, hb, hg, hsel, hlt, he, hex]
  | true =>
  right
  cases hfd : f.execDebit with
  | some e =>
    left; refine ⟨b, e, ?_⟩
    simp [TransferBalance, Beginx, Tx.getBalance, Tx.getExists, Tx.execDebit, Tx.execCredit,
      Tx.Commit, returnDeferred, Tx.Rollback, readsBalance, reachesUpdates, h0, hb, hg, hsel, hlt, he, hex, hfd]
  | none =>
  cases hd : updateDebit db.users amount fromID with
  | error e =>
    left; refine ⟨b, e, ?_⟩
    simp [TransferBalance, Beginx, Tx.getBalance, Tx.getExists, Tx.execDebit, Tx.execCredit,
      Tx.Commit, returnDeferred, Tx.Rollback, readsBalance, reachesUpdates, h0, hb, hg, hsel, hlt, he, hex, hfd, hd]
  | ok debited =>
  right
  cases hfc : f.execCredit with
  | some e =>
    left; refine ⟨b, debited, e, ?_⟩
    simp [TransferBalance, Beginx, Tx.getBalance, Tx.getExists, Tx.execDebit, Tx.execCredit,
      Tx.Commit, returnDeferred, Tx.Rollback, readsBalance, reachesUpdates, h0, hb, hg, hsel, hlt, he, hex, hfd, hd, hfc]
  | none =>
  cases hc : updateCredit debited amount toID with
  | error e =>
    left; refine ⟨b, debited, e, ?_⟩
    simp [TransferBalance, Beginx, Tx.getBalance, Tx.getExists, Tx.execDebit, Tx.execCredit,
      Tx.Commit, returnDeferred, Tx.Rollback, readsBalance, reachesUpdates, h0, hb, hg, hsel, hlt, he, hex, hfd, hd, hfc, hc]
  | ok credited =>
  right
  cases hcm : f.commit with
  | some e =>
    left; refine ⟨b, debited, credited, e, ?_⟩
    simp [TransferBalance, Beginx, Tx.getBalance, Tx.getExists, Tx.execDebit, Tx.execCredit,
      Tx.Commit, returnDeferred, Tx.Rollback, readsBalance, reachesUpdates, h0, hb, hg, hsel, hlt, he, hex, hfd, hd, hfc, hc, hcm]
  | none =>
    right; refine ⟨b, debited, credited, ?_⟩
    simp [TransferBalance, Beginx, Tx.getBalance, Tx.getExists, Tx.execDebit, Tx.execCredit,
      Tx.Commit, returnDeferred, Tx.Rollback, readsBalance, reachesUpdates, h0, hb, hg, hsel, hlt, he, hex, hfd, hd, hfc, hc, hcm]

/-! ## Auxiliary facts: order of `float64` and the verb `%.2f` -/

/-- A positive `float64` is not `<= 0`. -/
theorem float64_not_le_zero_of_pos (x : Float64) (h : 0 < x) : ¬ x ≤ 0 := by
  have hp1 : pow10 0 = 1 := by unfold pow10; norm_num
  cases x with
  | nan => exact fun h1 => by cases h1
  | posInf => exact fun h1 => by cases h1
  | negInf => cases h
  | fin u k =>
    have h1 : (0 : Int) * pow10 k < u * pow10 0 := by
      have : Float64.lt (.fin 0 0) (.fin u k) = true := h
      simpa [Float64.lt] using this
    intro h2
    have h3 : u * pow10 0 ≤ (0 : Int) * pow10 k := by
      have : Float64.le (.fin u k) (.fin 0 0) = true := h2
      simpa [Float64.le] using this
    omega

/-- If `x <= y` then not `y < x`. -/
theorem float64_not_lt_of_le (x y : Float64) (h : x ≤ y) : ¬ y < x := by
  cases x <;> cases y <;> first
    | (cases h; done)
    | (exact fun h1 => by cases h1)
    | skip
  rename_i u k v l
  have h1 : u * pow10 l ≤ v * pow10 k := by
    have : Float64.le (.fin u k) (.fin v l) = true := h
    simpa [Float64.le] using this
  intro h2
  have h3 : v * pow10 k < u * pow10 l := by
    have : Float64.lt (.fin v l) (.fin u k) = true := h2
    simpa [Float64.lt] using this
  omega

/-- The rounded quotient is within half a unit of the quotient. -/
theorem roundHalfEven_near (n d : Nat) (hd : 0 < d) :
    2 * (d * roundHalfEven n d) ≤ 2 * n + d ∧ 2 * n ≤ 2 * (d * roundHalfEven n d) + d := by
  have h1 := Nat.div_add_mod n d
  have h2 := Nat.mod_lt n hd
  unfold roundHalfEven
  generalize n / d = q at *
  generalize n % d = r at *
  have h3 : d * (q + 1) = d * q + d := by ring
  split_ifs <;> (try rw [h3]) <;> constructor <;> omega

/-- A number within fifty of a multiple of a modulus above one hundred rounds
to the multiplier. -/
theorem roundHalfEven_eq (x p a : Nat) (hp : 100 < p) (h1 : x ≤ a * p + 50)
    (h2 : a * p ≤ x + 50) : roundHalfEven x p = a := by
  have hdm := Nat.div_add_mod x p
  by_cases hc : a * p ≤ x
  · have hdiv : x / p = a :=
      Nat.div_eq_of_lt_le hc (by rw [Nat.succ_mul]; omega)
    rw [hdiv, Nat.mul_comm] at hdm
    unfold roundHalfEven
    rw [hdiv, if_pos (by omega)]
  · have ha : 1 ≤ a := by
      rcases Nat.eq_zero_or_pos a with h0 | h0
      · subst h0; simp at hc
      · exact h0
    have hsub : (a - 1) * p = a * p - p := Nat.sub_one_mul a p
    have hdiv : x / p = a - 1 := by
      apply Nat.div_eq_of_lt_le
      · rw [hsub]; omega
      · rw [Nat.succ_mul, hsub]
        have : p ≤ a * p := Nat.le_mul_of_pos_left p ha
        omega
    rw [hdiv, Nat.mul_comm, hsub] at hdm
    have hpa : p ≤ a * p := Nat.le_mul_of_pos_left p ha
    unfold roundHalfEven
    rw [hdiv, if_neg (by omega), if_pos (by omega)]
    omega

/-- The search of the binary scale ends on a scale that is large enough. -/
theorem scaleUp_spec (n d : Nat) :
    ∀ fuel s, 2 ^ 52 * d ≤ n * 2 ^ (s + fuel) → 2 ^ 52 * d ≤ n * 2 ^ scaleUp n d fuel s
  | 0, s, h => by simpa [scaleUp] using h
  | fuel + 1, s, h => by
    unfold scaleUp
    split_ifs with hc
    · exact hc
    · apply scaleUp_spec n d fuel (s + 1)
      have : s + 1 + fuel = s + (fuel + 1) := by omega
      rw [this]; exact h

/-- A binary scale of 59 bits or more is large enough for a quotient of at
least one hundredth. -/
theorem pow_large (n d e : Nat) (h : d ≤ 100 * n) (he : 59 ≤ e) : 2 ^ 52 * d ≤ n * 2 ^ e := by
  have h59 : (2 : Nat) ^ 59 ≤ 2 ^ e := Nat.pow_le_pow_right (by decide) he
  have h100 : (2 : Nat) ^ 52 * 100 ≤ 2 ^ 59 := by norm_num
  calc 2 ^ 52 * d ≤ 2 ^ 52 * (100 * n) := Nat.mul_le_mul_left _ h
    _ = n * (2 ^ 52 * 100) := by ring
    _ ≤ n * 2 ^ e := Nat.mul_le_mul_left _ (le_trans h100 h59)

/-- The verb `%.2f` on a whole number of cents below `2 ^ 52` prints these
cents: the nearest `float64` is nearer than half a cent. -/
theorem fixed2_eq (n d a : Nat) (hd : 0 < d) (ha : 0 < a) (ha2 : a < 2 ^ 52)
    (h : 100 * n = a * d) : fixed2 n d = a := by
  have had : a * d < 2 ^ 52 * d := Nat.mul_lt_mul_of_pos_right ha2 hd
  have hda : d ≤ a * d := Nat.le_mul_of_pos_left d ha
  have hn0 : n ≠ 0 := by
    intro h0; subst h0; omega
  have hlt : n < 2 ^ 52 * d := by omega
  have hbig : 2 ^ 52 * d ≤ n * 2 ^ (0 + 1074) :=
    pow_large n d (0 + 1074) (by omega) (by omega)
  have hfix : fixed2 n d = roundHalfEven (100 * roundHalfEven (n * 2 ^ scaleUp n d 1074 0) d)
      (2 ^ scaleUp n d 1074 0) := by
    simp only [fixed2, nearestFloat64, if_neg hn0, if_pos hlt]
  rw [hfix]
  have hs := scaleUp_spec n d 1074 0 hbig
  generalize (2 : Nat) ^ scaleUp n d 1074 0 = p at hs ⊢
  have hp : 100 < p := by
    by_contra hcon
    have : n * p ≤ n * 100 := Nat.mul_le_mul_left _ (not_lt.mp hcon)
    omega
  obtain ⟨hb1, hb2⟩ := roundHalfEven_near (n * p) d hd
  generalize roundHalfEven (n * p) d = m at hb1 hb2 ⊢
  have e2 : d * (2 * (a * p) + 100) = 100 * (2 * (n * p) + d) := by
    calc d * (2 * (a * p) + 100) = 2 * (a * d) * p + 100 * d := by ring
      _ = 2 * (100 * n) * p + 100 * d := by rw [h]
      _ = 100 * (2 * (n * p) + d) := by ring
  have e3 : d * (2 * (a * p)) = 100 * (2 * (n * p)) := by
    calc d * (2 * (a * p)) = 2 * (a * d) * p := by ring
      _ = 2 * (100 * n) * p := by rw [h]
      _ = 100 * (2 * (n * p)) := by ring
  have k1 : 2 * (100 * m) ≤ 2 * (a * p) + 100 := by
    apply Nat.le_of_mul_le_mul_left _ hd
    calc d * (2 * (100 * m)) = 100 * (2 * (d * m)) := by ring
      _ ≤ 100 * (2 * (n * p) + d) := Nat.mul_le_mul_left _ hb1
      _ = d * (2 * (a * p) + 100) := e2.symm
  have k2 : 2 * (a * p) ≤ 2 * (100 * m) + 100 := by
    apply Nat.le_of_mul_le_mul_left _ hd
    calc d * (2 * (a * p)) = 100 * (2 * (n * p)) := e3
      _ ≤ 100 * (2 * (d * m) + d) := Nat.mul_le_mul_left _ hb2
      _ = d * (2 * (100 * m) + 100) := by ring
  exact roundHalfEven_eq (100 * m) p a hp (by omega) (by omega)

/-- Digits of a natural number printed in decimal. -/
theorem toString_nat_data (n : Nat) : (toString n).data = Nat.toDigits 10 n := rfl

/-- Digits of the part after the point. -/
theorem twoDigits_data : ∀ m, m < 100 →
    (twoDigits m).data = [Nat.digitChar (m / 10), Nat.digitChar (m % 10)] := by
  decide

/-- Text of `%.2f` for a whole number of cents: sign, digits of the units,
point, digit of the tenths, digit of the hundredths. -/
theorem fmtFloat64_cents (b : Int) (hb : b.natAbs < 2 ^ 52) :
    (fmtFloat64 (.fin b 2)).data =
      (if b < 0 then ['-'] else []) ++ Nat.toDigits 10 (b.natAbs / 100) ++
        ['.', Nat.digitChar (b.natAbs / 10 % 10), Nat.digitChar (b.natAbs % 10)] := by
  have hfix : fixed2 b.natAbs (10 ^ 2) = b.natAbs := by
    by_cases h0 : b.natAbs = 0
    · rw [h0]; rfl
    · exact fixed2_eq b.natAbs (10 ^ 2) b.natAbs (by norm_num) (by omega) hb (by ring)
  have h1 : b.natAbs % 100 / 10 = b.natAbs / 10 % 10 := by omega
  have h2 : b.natAbs % 100 % 10 = b.natAbs % 10 := by omega
  simp only [fmtFloat64, hfix, String.data_append,
    twoDigits_data _ (Nat.mod_lt _ (by norm_num : 0 < 100)), h1, h2]
  by_cases hneg : b < 0
  · simp [if_pos hneg, toString_nat_data]
  · simp [if_neg hneg, toString_nat_data]

/-- Text of `%.2f` for a positive amount that is a whole number of cents. -/
theorem fmtFloat64_amount (amount : Float64) (a : Int) (hcents : amount.cents? = some a)
    (hpos : 0 < a) (ha : a.natAbs < 2 ^ 52) :
    (fmtFloat64 amount).data =
      Nat.toDigits 10 (a.natAbs / 100) ++
        ['.', Nat.digitChar (a.natAbs / 10 % 10), Nat.digitChar (a.natAbs % 10)] := by
  obtain ⟨u, k, rfl, hu⟩ := cents?_eq amount a hcents
  have hp := pow10_pos k
  have hupos : 0 < u := by
    by_contra hcon
    have h1 : 100 * u ≤ 0 := by omega
    have h2 : 0 < a * pow10 k := Int.mul_pos hpos hp
    omega
  have hnat : 100 * u.natAbs = a.natAbs * 10 ^ k := by
    have h1 : ((100 * u.natAbs : Nat) : Int) = ((a.natAbs * 10 ^ k : Nat) : Int) := by
      push_cast
      rw [abs_of_pos hupos, abs_of_pos hpos]
      unfold pow10 at hu
      push_cast at hu
      exact hu
    exact_mod_cast h1
  have hfix : fixed2 u.natAbs (10 ^ k) = a.natAbs :=
    fixed2_eq u.natAbs (10 ^ k) a.natAbs (Nat.pow_pos (by decide)) (by omega) ha hnat
  have h1 : a.natAbs % 100 / 10 = a.natAbs / 10 % 10 := by omega
  have h2 : a.natAbs % 100 % 10 = a.natAbs % 10 := by omega
  simp only [fmtFloat64, hfix, String.data_append, if_neg (not_lt.mpr (le_of_lt hupos)),
    twoDigits_data _ (Nat.mod_lt _ (by norm_num : 0 < 100)), h1, h2]
  simp [toString_nat_data]

/-- Texts of `%.2f`: the special values, ties of the binary value going to
the even neighbour, decimals whose nearest `float64` is below or above
them, a value beyond 53 bits. -/
theorem fmtFloat64_samples :
    fmtFloat64 .nan = "NaN" ∧ fmtFloat64 .posInf = "+Inf" ∧ fmtFloat64 .negInf = "-Inf" ∧
    fmtFloat64 (.fin 125 3) = "0.12" ∧ fmtFloat64 (.fin 375 3) = "0.38" ∧
    fmtFloat64 (.fin 5 3) = "0.01" ∧ fmtFloat64 (.fin 1005 3) = "1.00" ∧
    fmtFloat64 (.fin 2675 3) = "2.67" ∧ fmtFloat64 (.fin (-705) 2) = "-7.05" ∧
    fmtFloat64 (.fin 100000000000000000000000 0) = "99999999999999991611392.00" := by
  decide

/-! ## Auxiliary facts: consequences of the exit paths -/

/-- When the database executes every call and all checks pass, a transfer
of a whole number of cents succeeds and commits both updates. -/
theorem transferBalance_success (db : DB) (fromID toID : Int) (amount : Float64)
    (a b : Int) (hcents : amount.cents? = some a) (hpos : 0 < a)
    (hsender : selectBalance db.users fromID = some (.cents b))
    (hle : a ≤ b) (hreceiver : selectExists db.users toID = true) :
    TransferBalance db noFaults fromID toID amount =
      { ret := none,
        db := { db with users := shiftRows (shiftRows db.users (-a) fromID) a toID },
        tx := some { status := .committed,
                     view := shiftRows (shiftRows db.users (-a) fromID) a toID },
        calls := [.beginx, .getBalance fromID, .getExists toID, .execDebit amount fromID,
          .execCredit amount toID, .commit] } := by
  have hna : ¬ amount ≤ 0 := by
    rw [le_zero_cents amount a hcents]; omega
  have hnlt : ¬ (Numeric.cents b).toFloat64 < amount := by
    rw [lt_cents b amount a hcents]; omega
  simp [TransferBalance, Beginx, Tx.getBalance, Tx.getExists, Tx.execDebit, Tx.execCredit,
    Tx.Commit, returnDeferred, noFaults, hna, hsender, hnlt, hreceiver,
    updateDebit_cents _ _ _ _ hcents, updateCredit_cents _ _ _ _ hcents]

/-- Outcomes of `TransferBalance` on the database: an error leaves it as it
was; otherwise every check passed and both updates are committed. -/
theorem transferBalance_outcome (db : DB) (f : Faults) (fromID toID : Int)
    (amount : Float64) :
    ((TransferBalance db f fromID toID amount).ret ≠ none ∧
      (TransferBalance db f fromID toID amount).db = db) ∨
    ((TransferBalance db f fromID toID amount).ret = none ∧
      ∃ b debited credited, reachesUpdates db f fromID toID amount b ∧
        updateDebit db.users amount fromID = .ok debited ∧
        updateCredit debited amount toID = .ok credited ∧
        (TransferBalance db f fromID toID amount).db = { db with users := credited }) := by
  rcases transferBalance_paths db f fromID toID amount with
    ⟨_, h⟩ | ⟨e, _, _, h⟩ | ⟨e, _, _, _, h⟩ | ⟨b, _, _, h⟩ | ⟨b, e, _, _, _, h⟩ |
    ⟨b, _, _, _, _, h⟩ | ⟨b, e, _, _, h⟩ | ⟨b, d, e, _, _, _, _, h⟩ |
    ⟨b, d, c, e, _, _, _, _, _, _, h⟩ | ⟨b, d, c, hreach, _, hd, _, hc, _, h⟩
  all_goals first
    | (left; rw [h]; exact ⟨by simp, rfl⟩)
    | (right; rw [h]; exact ⟨rfl, b, d, c, hreach, hd, hc, rfl⟩)

/-- Both key constraints of the table survive every call of `TransferBalance`. -/
theorem transferBalance_preserves_keys (db : DB) (f : Faults) (fromID toID : Int)
    (amount : Float64) (hids : uniqueIDs db.users) (hemails : uniqueEmails db.users) :
    uniqueIDs (TransferBalance db f fromID toID amount).db.users ∧
    uniqueEmails (TransferBalance db f fromID toID amount).db.users := by
  rcases transferBalance_outcome db f fromID toID amount with
    ⟨_, hdb⟩ | ⟨_, _, debited, credited, _, hd, hc, hdb⟩
  · rw [hdb]; exact ⟨hids, hemails⟩
  · rw [hdb]
    have h1 := updateDebit_keys _ _ _ _ hd
    have h2 := updateCredit_keys _ _ _ _ hc
    constructor
    · show (credited.map User.ID).Nodup
      rw [h2.1, h1.1]; exact hids
    · show (credited.map User.Email).Nodup
      rw [h2.2, h1.2]; exact hemails

/-- Both key constraints of the table survive every call of `InsertUser`. -/
theorem insertUser_preserves_keys (db : DB) (fault : Option DriverError) (user : User)
    (hids : uniqueIDs db.users) (hemails : uniqueEmails db.users) :
    uniqueIDs (InsertUser db fault user).2.users ∧
    uniqueEmails (InsertUser db fault user).2.users := by
  cases fault with
  | some e => simpa [InsertUser, namedExecInsert] using ⟨hids, hemails⟩
  | none =>
    by_cases hid : db.users.any (fun u => decide (u.ID = db.nextID)) = true
    · simpa [InsertUser, namedExecInsert, hid] using ⟨hids, hemails⟩
    · by_cases hany : db.users.any (fun u => decide (u.Email = user.Email)) = true
      · simpa [InsertUser, namedExecInsert, hid, hany] using ⟨hids, hemails⟩
      · have hid1 : ∀ u ∈ db.users, ¬ u.ID = db.nextID := by simpa using hid
        have hany1 : ∀ u ∈ db.users, ¬ u.Email = user.Email := by simpa using hany
        have husers : (InsertUser db none user).2.users =
            db.users ++ [{ ID := db.nextID, Name := user.Name, Email := user.Email,
                           Balance := user.Balance }] := by
          simp [InsertUser, namedExecInsert, hid, hany]
        rw [husers]
        simp only [uniqueIDs, uniqueEmails, List.map_append, List.map_cons, List.map_nil]
        constructor
        · refine List.Nodup.append hids (List.nodup_singleton _) ?_
          intro x hx hx1
          obtain ⟨u, hu, rfl⟩ := List.mem_map.mp hx
          exact hid1 u hu (List.mem_singleton.mp hx1)
        · refine List.Nodup.append hemails (List.nodup_singleton _) ?_
          intro x hx hx1
          obtain ⟨u, hu, rfl⟩ := List.mem_map.mp hx
          exact hany1 u hu (List.mem_singleton.mp hx1)

/-- The seeded table satisfies both key constraints. -/
theorem seedDB_keys : uniqueIDs seedDB.users ∧ uniqueEmails seedDB.users := by
  decide

/-- State of the transaction handle at return.  A handle was opened exactly
when the call got past `Beginx`; it is still active exactly on the returns
for insufficient balance and for a receiver that is not found, and a handle
left active holds no pending change. -/
theorem transferBalance_handle (db : DB) (f : Faults) (fromID toID : Int)
    (amount : Float64) (tx : Tx)
    (htx : (TransferBalance db f fromID toID amount).tx = some tx) :
    (tx.status = .active ↔
      ((∃ b, (TransferBalance db f fromID toID amount).ret =
          some (.insufficientBalance b amount)) ∨
        (TransferBalance db f fromID toID amount).ret = some (.receiverNotFound toID))) ∧
    (tx.status = .active → tx.view = db.users) := by
  rcases transferBalance_paths db f fromID toID amount with
    ⟨_, h⟩ | ⟨e, _, _, h⟩ | ⟨e, _, _, _, h⟩ | ⟨b, _, _, h⟩ | ⟨b, e, _, _, _, h⟩ |
    ⟨b, _, _, _, _, h⟩ | ⟨b, e, _, _, h⟩ | ⟨b, d, e, _, _, _, _, h⟩ |
    ⟨b, d, c, e, _, _, _, _, _, _, h⟩ | ⟨b, d, c, _, _, _, _, _, _, h⟩
  all_goals
    rw [h] at htx ⊢
    simp only [Option.some.injEq] at htx
    first
      | (cases htx; done)
      | (subst htx; simp)

/-- A balance that is read is the balance of a row of the table. -/
theorem selectBalance_mem (users : List User) (id : Int) (b : Numeric)
    (h : selectBalance users id = some b) : ∃ u ∈ users, u.Balance = b := by
  unfold selectBalance at h
  cases hu : users.find? (fun u => decide (u.ID = id)) with
  | none => rw [hu] at h; simp at h
  | some u =>
    rw [hu] at h
    exact ⟨u, List.mem_of_find?_eq_some hu, by simpa using h⟩

/-- A debit that the balance covers leaves no negative balance. -/
theorem debitRow_nonneg (u : Int) (k : Nat) (id : Int) (w v : User)
    (hw : w.Balance.nonneg)
    (hcover : w.ID = id → ¬ w.Balance.toFloat64 < Float64.fin u k)
    (hrow : debitRow (.fin u k) id w = .ok v) : v.Balance.nonneg := by
  unfold debitRow at hrow
  by_cases hid : w.ID = id
  · rw [if_pos hid] at hrow
    cases hbal : w.Balance with
    | nan => rw [hbal] at hw; exact absurd hw (by simp [Numeric.nonneg])
    | cents c =>
      have hc : ¬ (Numeric.cents c).toFloat64 < Float64.fin u k := hbal ▸ hcover hid
      have hc1 : ¬ c * pow10 k < u * pow10 2 := by
        intro hlt
        apply hc
        show Float64.lt (.fin c 2) (.fin u k) = true
        simpa [Float64.lt] using hlt
      have h100 : pow10 2 = 100 := by unfold pow10; norm_num
      rw [hbal] at hrow
      simp only [Numeric.sub, Except.map] at hrow
      cases hrow
      show 0 ≤ roundHalfAway (c * pow10 k - 100 * u) (10 ^ k)
      apply roundHalfAway_nonneg
      rw [h100] at hc1
      omega
  · rw [if_neg hid] at hrow
    cases hrow
    exact hw

/-- A credit of a positive amount leaves no negative balance. -/
theorem creditRow_nonneg (u : Int) (k : Nat) (id : Int) (w v : User)
    (hu : 0 < u) (hw : w.Balance.nonneg)
    (hrow : creditRow (.fin u k) id w = .ok v) : v.Balance.nonneg := by
  unfold creditRow at hrow
  by_cases hid : w.ID = id
  · rw [if_pos hid] at hrow
    cases hbal : w.Balance with
    | nan => rw [hbal] at hw; exact absurd hw (by simp [Numeric.nonneg])
    | cents c =>
      have hc0 : 0 ≤ c := by rw [hbal] at hw; exact hw
      rw [hbal] at hrow
      simp only [Numeric.add, Except.map] at hrow
      cases hrow
      show 0 ≤ roundHalfAway (c * pow10 k + 100 * u) (10 ^ k)
      apply roundHalfAway_nonneg
      have := Int.mul_nonneg hc0 (le_of_lt (pow10_pos k))
      omega
  · rw [if_neg hid] at hrow
    cases hrow
    exact hw

/-! ## `TransferBalance`: rejected calls -/

/-- C7. A call with `amount <= 0` returns the validation error ("amount
must be positive") whatever the identifiers, the table and the state of the
database connection; it issues no database call, opens no transaction and
leaves the database as it was. -/
theorem transferBalance_rejects_nonpositive (db : DB) (f : Faults) (fromID toID : Int)
    (amount : Float64) (h : amount ≤ 0) :
    (TransferBalance db f fromID toID amount).ret = some .amountNotPositive ∧
    (TransferBalance db f fromID toID amount).calls = [] ∧
    (TransferBalance db f fromID toID amount).tx = none ∧
    (TransferBalance db f fromID toID amount).db = db := by
  simp [TransferBalance, h]

/-- Instance of C7: a transfer of -5.00 on the seeded table. -/
theorem transferBalance_rejects_nonpositive_witness :
    Float64.fin (-500) 2 ≤ 0 ∧
    (TransferBalance seedDB noFaults 1 2 (.fin (-500) 2)).ret = some .amountNotPositive ∧
    (TransferBalance seedDB noFaults 1 2 (.fin (-500) 2)).calls = [] ∧
    (TransferBalance seedDB noFaults 1 2 (.fin (-500) 2)).tx = none ∧
    (TransferBalance seedDB noFaults 1 2 (.fin (-500) 2)).db = seedDB :=
  ⟨by decide,
   transferBalance_rejects_nonpositive seedDB noFaults 1 2 (.fin (-500) 2) (by decide)⟩

/-- C2. All-or-nothing: whenever `TransferBalance` returns an error, at
whichever step and for whichever cause, the database after the call is the
database before the call.  Moreover, after any call the table is either the
old one or the old one with both the debit and the credit applied: a debit
never stays without its credit. -/
theorem transferBalance_all_or_nothing (db : DB) (f : Faults) (fromID toID : Int)
    (amount : Float64) :
    ((TransferBalance db f fromID toID amount).ret ≠ none →
      (TransferBalance db f fromID toID amount).db = db) ∧
    ((TransferBalance db f fromID toID amount).db = db ∨
      ∃ debited credited, updateDebit db.users amount fromID = .ok debited ∧
        updateCredit debited amount toID = .ok credited ∧
        (TransferBalance db f fromID toID amount).db = { db with users := credited }) := by
  rcases transferBalance_outcome db f fromID toID amount with
    ⟨_, hdb⟩ | ⟨hret, _, debited, credited, _, hd, hc, hdb⟩
  · exact ⟨fun _ => hdb, Or.inl hdb⟩
  · exact ⟨fun h => absurd hret h, Or.inr ⟨debited, credited, hd, hc, hdb⟩⟩

/-- Instances of C2: the credit fails after the debit was executed; the commit fails
after both updates were executed. -/
theorem transferBalance_all_or_nothing_witness :
    ((TransferBalance seedDB creditFails 1 2 (.fin 100 0)).ret ≠ none ∧
      (TransferBalance seedDB creditFails 1 2 (.fin 100 0)).db = seedDB) ∧
    ((TransferBalance seedDB commitFails 1 2 (.fin 100 0)).ret ≠ none ∧
      (TransferBalance seedDB commitFails 1 2 (.fin 100 0)).db = seedDB) :=
  ⟨⟨by decide,
    (transferBalance_all_or_nothing seedDB creditFails 1 2 (.fin 100 0)).1 (by decide)⟩,
   ⟨by decide,
    (transferBalance_all_or_nothing seedDB commitFails 1 2 (.fin 100 0)).1 (by decide)⟩⟩

/-- C5, as stated, fails when the database does not answer: the sender
holds 1000.00, less than the 5000.00 requested, yet the call returns the
error of `Beginx` and not the insufficient-balance error. -/
theorem transferBalance_insufficient_counterexample :
    (0 : Float64) < .fin 5000 0 ∧
    selectBalance seedDB.users 1 = some (.cents 100000) ∧
    (Numeric.cents 100000).toFloat64 < .fin 5000 0 ∧
    (TransferBalance seedDB beginFails 1 2 (.fin 5000 0)).ret =
      some (.beginFailed "driver: bad connection") ∧
    (TransferBalance seedDB beginFails 1 2 (.fin 5000 0)).ret ≠
      some (.insufficientBalance (.fin 100000 2) (.fin 5000 0)) := by
  decide

/-- C5, amended. When the transaction is opened and the balance of the
sender is read, a call with `amount > 0` whose sender holds less than
`amount` returns the insufficient-balance error.  Its text is the format
string of the source filled with the stored balance and with the amount,
both under `%.2f`; for a balance, and for an amount, of a whole number of
cents below `2 ^ 52` these are the sign, the digits of the units, a point
and the two digits of the cents.  The database, hence the balance of the
sender and of the receiver, is as before. -/
theorem transferBalance_insufficient (db : DB) (f : Faults) (fromID toID : Int)
    (amount : Float64) (b : Int) (hpos : 0 < amount)
    (hbegin : f.beginx = none) (hget : f.getBalance = none)
    (hsender : selectBalance db.users fromID = some (.cents b))
    (hlt : (Numeric.cents b).toFloat64 < amount) :
    (TransferBalance db f fromID toID amount).ret =
      some (.insufficientBalance (.fin b 2) amount) ∧
    (TransferBalance db f fromID toID amount).ret.map TransferError.Error =
      some ("insufficient balance: sender has $" ++ fmtFloat64 (.fin b 2) ++
        ", tried to send $" ++ fmtFloat64 amount) ∧
    (b.natAbs < 2 ^ 52 →
      (fmtFloat64 (.fin b 2)).data =
        (if b < 0 then ['-'] else []) ++ Nat.toDigits 10 (b.natAbs / 100) ++
          ['.', Nat.digitChar (b.natAbs / 10 % 10), Nat.digitChar (b.natAbs % 10)]) ∧
    (∀ a : Int, amount.cents? = some a → a.natAbs < 2 ^ 52 →
      (fmtFloat64 amount).data =
        Nat.toDigits 10 (a.natAbs / 100) ++
          ['.', Nat.digitChar (a.natAbs / 10 % 10), Nat.digitChar (a.natAbs % 10)]) ∧
    (TransferBalance db f fromID toID amount).db = db ∧
    selectBalance (TransferBalance db f fromID toID amount).db.users fromID =
      some (.cents b) ∧
    selectBalance (TransferBalance db f fromID toID amount).db.users toID =
      selectBalance db.users toID := by
  have hna : ¬ amount ≤ 0 := float64_not_le_zero_of_pos amount hpos
  have hlt1 : Float64.fin b 2 < amount := hlt
  have hrun : TransferBalance db f fromID toID amount =
      { ret := some (.insufficientBalance (.fin b 2) amount), db := db,
        tx := some { status := .active, view := db.users },
        calls := [.beginx, .getBalance fromID] } := by
    simp [TransferBalance, Beginx, Tx.getBalance, returnDeferred, hna, hbegin, hget, hsender,
      Numeric.toFloat64, hlt1]
  rw [hrun]
  refine ⟨rfl, rfl, fmtFloat64_cents b, ?_, rfl, hsender, rfl⟩
  intro a hcents ha
  have hapos : 0 < a := by
    by_contra hcon
    exact hna ((le_zero_cents amount a hcents).mpr (not_lt.mp hcon))
  exact fmtFloat64_amount amount a hcents hapos ha

/-- Instances of C5 as amended: the call `TransferBalance(db, 1, 2, 5000.00)` of
`main`; a sender holding 1234.56 asked for 98765.43; a sender holding 0.00
asked for 0.005, for 0.125 and for 0.375, which `%.2f` prints as 0.01, 0.12
and 0.38; a sender holding 1000.00 asked for +Inf and for `1e23`. -/
theorem transferBalance_insufficient_witness :
    ((TransferBalance seedDB noFaults 1 2 (.fin 5000 0)).ret.map TransferError.Error =
        some "insufficient balance: sender has $1000.00, tried to send $5000.00" ∧
      (TransferBalance seedDB noFaults 1 2 (.fin 5000 0)).db = seedDB) ∧
    ((TransferBalance oddCentsDB noFaults 1 2 (.fin 9876543 2)).ret.map TransferError.Error =
        some "insufficient balance: sender has $1234.56, tried to send $98765.43" ∧
      (fmtFloat64 (.fin 123456 2)).data = ['1', '2', '3', '4', '.', '5', '6'] ∧
      (fmtFloat64 (.fin 9876543 2)).data = ['9', '8', '7', '6', '5', '.', '4', '3']) ∧
    ((TransferBalance emptyPurseDB noFaults 1 2 (.fin 5 3)).ret.map TransferError.Error =
        some "insufficient balance: sender has $0.00, tried to send $0.01" ∧
      (TransferBalance emptyPurseDB noFaults 1 2 (.fin 125 3)).ret.map TransferError.Error =
        some "insufficient balance: sender has $0.00, tried to send $0.12" ∧
      (TransferBalance emptyPurseDB noFaults 1 2 (.fin 375 3)).ret.map TransferError.Error =
        some "insufficient balance: sender has $0.00, tried to send $0.38") ∧
    ((TransferBalance seedDB noFaults 1 2 .posInf).ret.map TransferError.Error =
        some "insufficient balance: sender has $1000.00, tried to send $+Inf" ∧
      (TransferBalance seedDB noFaults 1 2 (.fin 100000000000000000000000 0)).ret.map
          TransferError.Error =
        some ("insufficient balance: sender has $1000.00, tried to send " ++
          "$99999999999999991611392.00")) :=
  ⟨⟨(transferBalance_insufficient seedDB noFaults 1 2 (.fin 5000 0) 100000 (by decide) rfl rfl
        (by decide) (by decide)).2.1.trans (by decide),
    (transferBalance_insufficient seedDB noFaults 1 2 (.fin 5000 0) 100000 (by decide) rfl rfl
        (by decide) (by decide)).2.2.2.2.1⟩,
   ⟨(transferBalance_insufficient oddCentsDB noFaults 1 2 (.fin 9876543 2) 123456 (by decide)
        rfl rfl (by decide) (by decide)).2.1.trans (by decide),
    ((transferBalance_insufficient oddCentsDB noFaults 1 2 (.fin 9876543 2) 123456 (by decide)
        rfl rfl (by decide) (by decide)).2.2.1 (by decide)).trans (by decide),
    ((transferBalance_insufficient oddCentsDB noFaults 1 2 (.fin 9876543 2) 123456 (by decide)
        rfl rfl (by decide) (by decide)).2.2.2.1 9876543 (by decide) (by decide)).trans
      (by decide)⟩,
   ⟨(transferBalance_insufficient emptyPurseDB noFaults 1 2 (.fin 5 3) 0 (by decide) rfl rfl
        (by decide) (by decide)).2.1.trans (by decide),
    (transferBalance_insufficient emptyPurseDB noFaults 1 2 (.fin 125 3) 0 (by decide) rfl rfl
        (by decide) (by decide)).2.1.trans (by decide),
    (transferBalance_insufficient emptyPurseDB noFaults 1 2 (.fin 375 3) 0 (by decide) rfl rfl
        (by decide) (by decide)).2.1.trans (by decide)⟩,
   ⟨(transferBalance_insufficient seedDB noFaults 1 2 .posInf 100000 (by decide) rfl rfl
        (by decide) (by decide)).2.1.trans (by decide),
    (transferBalance_insufficient seedDB noFaults 1 2 (.fin 100000000000000000000000 0) 100000
        (by decide) rfl rfl (by decide) (by decide)).2.1.trans (by decide)⟩⟩

/-- C6, as stated, fails: the receiver 999 is absent, yet the call returns the
insufficient-balance error and not "receiver with ID 999 not found", the
balance of the sender being checked first. -/
theorem transferBalance_absent_receiver_counterexample :
    selectExists seedDB.users 999 = false ∧
    (TransferBalance seedDB noFaults 1 999 (.fin 5000 0)).ret ≠
      some (.receiverNotFound 999) ∧
    (TransferBalance seedDB noFaults 1 999 (.fin 5000 0)).ret =
      some (.insufficientBalance (.fin 100000 2) (.fin 5000 0)) := by
  decide

/-- C6, amended. A call whose receiver is not in the table leaves the
database as it was and returns an error.  The error is "receiver with ID
<toID> not found" exactly when everything that comes before the check of
the receiver passes: the amount is not refused by the validation, the
transaction is opened, the balance of the sender is read and is not below
the amount, and the query on the receiver is executed.  This is the case
when `amount > 0`, the sender exists with a balance of at least `amount`
and the database executes these calls. -/
theorem transferBalance_absent_receiver (db : DB) (f : Faults) (fromID toID : Int)
    (amount : Float64) (habsent : selectExists db.users toID = false) :
    (TransferBalance db f fromID toID amount).db = db ∧
    (TransferBalance db f fromID toID amount).ret ≠ none ∧
    ((TransferBalance db f fromID toID amount).ret = some (.receiverNotFound toID) ↔
      (¬ amount ≤ 0 ∧ f.beginx = none ∧ f.getBalance = none ∧ f.getExists = none ∧
        ∃ b, selectBalance db.users fromID = some b ∧ ¬ b.toFloat64 < amount)) ∧
    (∀ b : Numeric, 0 < amount → f.beginx = none → f.getBalance = none →
      f.getExists = none → selectBalance db.users fromID = some b →
      amount ≤ b.toFloat64 →
      (TransferBalance db f fromID toID amount).ret = some (.receiverNotFound toID) ∧
      (TransferBalance db f fromID toID amount).ret.map TransferError.Error =
        some ("receiver with ID " ++ fmtInt toID ++ " not found")) := by
  have hmain : (TransferBalance db f fromID toID amount).db = db ∧
      (TransferBalance db f fromID toID amount).ret ≠ none ∧
      ((TransferBalance db f fromID toID amount).ret = some (.receiverNotFound toID) ↔
        (¬ amount ≤ 0 ∧ f.beginx = none ∧ f.getBalance = none ∧ f.getExists = none ∧
          ∃ b, selectBalance db.users fromID = some b ∧ ¬ b.toFloat64 < amount)) := by
    rcases transferBalance_paths db f fromID toID amount with
      ⟨h0, h⟩ | ⟨e, h0, hb, h⟩ | ⟨e, h0, hb, hg, h⟩ | ⟨b, hr, hlt, h⟩ |
      ⟨b, e, hr, hlt, he, h⟩ | ⟨b, hr, hlt, he, hex, h⟩ | ⟨b, e, hu, _, h⟩ |
      ⟨b, d, e, hu, _, _, _, h⟩ | ⟨b, d, c, e, hu, _, _, _, _, _, h⟩ |
      ⟨b, d, c, hu, _, _, _, _, _, h⟩
    · rw [h]; simp [h0]
    · rw [h]; simp [hb]
    · rw [h]
      refine ⟨rfl, by simp, ?_⟩
      constructor
      · intro hret; simp at hret
      · rintro ⟨_, _, hg1, _, b, hsel, _⟩
        rcases hg with hg | ⟨_, hnone, _⟩
        · rw [hg1] at hg; cases hg
        · rw [hsel] at hnone; cases hnone
    · rw [h]
      obtain ⟨_, _, _, hsel⟩ := hr
      refine ⟨rfl, by simp, ?_⟩
      constructor
      · intro hret; simp at hret
      · rintro ⟨_, _, _, _, b1, hsel1, hnlt⟩
        rw [hsel] at hsel1
        cases hsel1
        exact absurd hlt hnlt
    · rw [h]; simp [he]
    · rw [h]
      obtain ⟨h0, hb, hg, hsel⟩ := hr
      exact ⟨rfl, by simp, by simp; exact ⟨h0, hb, hg, he, b, hsel, hlt⟩⟩
    · exact absurd hu.2.2.2 (by rw [habsent]; simp)
    · exact absurd hu.2.2.2 (by rw [habsent]; simp)
    · exact absurd hu.2.2.2 (by rw [habsent]; simp)
    · exact absurd hu.2.2.2 (by rw [habsent]; simp)
  refine ⟨hmain.1, hmain.2.1, hmain.2.2, ?_⟩
  intro b hpos hbegin hget hexists hsender hle
  have hret := hmain.2.2.mpr ⟨float64_not_le_zero_of_pos amount hpos, hbegin, hget, hexists, b,
    hsender, float64_not_lt_of_le amount b.toFloat64 hle⟩
  rw [hret]
  exact ⟨rfl, rfl⟩

/-- Instance of C6 as amended: the call `TransferBalance(db, 1, 999, 10.00)` of `main`. -/
theorem transferBalance_absent_receiver_witness :
    selectExists seedDB.users 999 = false ∧
    (TransferBalance seedDB noFaults 1 999 (.fin 10 0)).db = seedDB ∧
    (TransferBalance seedDB noFaults 1 999 (.fin 10 0)).ret.map TransferError.Error =
      some "receiver with ID 999 not found" :=
  ⟨by decide,
   (transferBalance_absent_receiver seedDB noFaults 1 999 (.fin 10 0) (by decide)).1,
   ((transferBalance_absent_receiver seedDB noFaults 1 999 (.fin 10 0) (by decide)).2.2.2
      (.cents 100000) (by decide) rfl rfl rfl (by decide) (by decide)).2⟩

/-- C4, the defect. On the two returns that build their error without
assigning `err` (insufficient balance, receiver not found) the deferred
function sees `err == nil` and does not roll back: the handle is still
active when `TransferBalance` returns, although an error is returned and
neither `Commit` nor `Rollback` was called. -/
theorem transferBalance_leaves_tx_active :
    ((TransferBalance seedDB noFaults 1 2 (.fin 5000 0)).ret =
        some (.insufficientBalance (.fin 100000 2) (.fin 5000 0)) ∧
      (TransferBalance seedDB noFaults 1 2 (.fin 5000 0)).tx.map Tx.status = some .active ∧
      (TransferBalance seedDB noFaults 1 2 (.fin 5000 0)).calls =
        [.beginx, .getBalance 1]) ∧
    ((TransferBalance seedDB noFaults 1 999 (.fin 10 0)).ret = some (.receiverNotFound 999) ∧
      (TransferBalance seedDB noFaults 1 999 (.fin 10 0)).tx.map Tx.status = some .active ∧
      (TransferBalance seedDB noFaults 1 999 (.fin 10 0)).calls =
        [.beginx, .getBalance 1, .getExists 999]) := by
  decide

/-! ## `TransferBalance`: accepted calls -/

/-- C1, as stated, fails in three ways.  Sender and receiver the same
account: `TransferBalance(1, 1, 100.00)` on the seeded table succeeds and
the row keeps 1000.00, neither minus nor plus the amount.  An amount that
is not a whole number of cents: `TransferBalance(1, 2, 0.005)` succeeds,
the sender keeps 1000.00 and the receiver goes from 500.00 to 500.01,
each update being rounded to the two digits of the column.  A database
call that fails: the call does not succeed. -/
theorem transferBalance_moves_amount_counterexample :
    ((0 : Float64) < .fin 100 0 ∧ selectBalance seedDB.users 1 = some (.cents 100000) ∧
      Float64.fin 100 0 ≤ (Numeric.cents 100000).toFloat64 ∧
      selectExists seedDB.users 1 = true ∧
      (TransferBalance seedDB noFaults 1 1 (.fin 100 0)).ret = none ∧
      selectBalance (TransferBalance seedDB noFaults 1 1 (.fin 100 0)).db.users 1 ≠
        some (.cents (100000 - 10000)) ∧
      selectBalance (TransferBalance seedDB noFaults 1 1 (.fin 100 0)).db.users 1 ≠
        some (.cents (100000 + 10000))) ∧
    ((0 : Float64) < .fin 5 3 ∧ selectBalance seedDB.users 1 = some (.cents 100000) ∧
      Float64.fin 5 3 ≤ (Numeric.cents 100000).toFloat64 ∧
      selectBalance seedDB.users 2 = some (.cents 50000) ∧
      (TransferBalance seedDB noFaults 1 2 (.fin 5 3)).ret = none ∧
      selectBalance (TransferBalance seedDB noFaults 1 2 (.fin 5 3)).db.users 1 =
        some (.cents 100000) ∧
      selectBalance (TransferBalance seedDB noFaults 1 2 (.fin 5 3)).db.users 2 =
        some (.cents 50001)) ∧
    (TransferBalance seedDB creditFails 1 2 (.fin 100 0)).ret ≠ none := by
  decide

/-- C1, amended. When the database executes every call, a call whose amount
is a positive whole number of cents, whose sender exists with a balance of
at least the amount and whose receiver exists succeeds and is committed.
If the receiver is another account (`fromID ≠ toID`), the balance of the
sender is afterwards its old balance minus the amount, the balance of the
receiver its old balance plus the amount (a balance NaN stays NaN), and the
table is the old one row by row, identifiers, names and emails included,
with the balance changed on the rows of the sender and of the receiver
only.  If sender and receiver are the same account, the table is as it
was. -/
theorem transferBalance_moves_amount (db : DB) (fromID toID : Int) (amount : Float64)
    (a b : Int) (hcents : amount.cents? = some a) (hpos : 0 < a)
    (hsender : selectBalance db.users fromID = some (.cents b)) (hle : a ≤ b)
    (hreceiver : selectExists db.users toID = true) :
    (TransferBalance db noFaults fromID toID amount).ret = none ∧
    (TransferBalance db noFaults fromID toID amount).tx.map Tx.status = some .committed ∧
    (TransferBalance db noFaults fromID toID amount).db.nextID = db.nextID ∧
    (fromID ≠ toID →
      selectBalance (TransferBalance db noFaults fromID toID amount).db.users fromID =
        some (.cents (b - a)) ∧
      (∀ t : Int, selectBalance db.users toID = some (.cents t) →
        selectBalance (TransferBalance db noFaults fromID toID amount).db.users toID =
          some (.cents (t + a))) ∧
      (selectBalance db.users toID = some .nan →
        selectBalance (TransferBalance db noFaults fromID toID amount).db.users toID =
          some .nan) ∧
      (∀ id, id ≠ fromID → id ≠ toID →
        selectBalance (TransferBalance db noFaults fromID toID amount).db.users id =
          selectBalance db.users id) ∧
      (TransferBalance db noFaults fromID toID amount).db.users =
        db.users.map (fun u =>
          { u with Balance :=
              if u.ID = fromID then u.Balance.shift (-a)
              else if u.ID = toID then u.Balance.shift a else u.Balance })) ∧
    (fromID = toID →
      (TransferBalance db noFaults fromID toID amount).db.users = db.users) := by
  rw [transferBalance_success db fromID toID amount a b hcents hpos hsender hle hreceiver]
  refine ⟨rfl, rfl, rfl, ?_, ?_⟩
  · intro hne
    have hne1 : ¬ toID = fromID := fun h => hne h.symm
    refine ⟨?_, ?_, ?_, ?_, ?_⟩
    · simp only [selectBalance_shiftRows, hsender, Option.map_some', if_neg hne, if_true,
        Numeric.shift]
      rfl
    · intro t ht
      simp only [selectBalance_shiftRows, ht, Option.map_some', if_neg hne1, if_true,
        Numeric.shift]
    · intro ht
      simp only [selectBalance_shiftRows, ht, Option.map_some', if_neg hne1, if_true,
        Numeric.shift]
    · intro id h1 h2
      simp [selectBalance_shiftRows, h1, h2]
    · exact shiftRows_shiftRows db.users a fromID toID hne
  · intro heq
    subst heq
    exact shiftRows_self db.users a fromID

/-- Instance of C1 as amended: the call `TransferBalance(db, 1, 2, 100.00)` of `main`,
Alice 1000.00 to 900.00 and Bob 500.00 to 600.00. -/
theorem transferBalance_moves_amount_witness :
    selectBalance seedDB.users 1 = some (.cents 100000) ∧
    selectBalance seedDB.users 2 = some (.cents 50000) ∧
    (TransferBalance seedDB noFaults 1 2 (.fin 100 0)).ret = none ∧
    selectBalance (TransferBalance seedDB noFaults 1 2 (.fin 100 0)).db.users 1 =
      some (.cents (100000 - 10000)) ∧
    selectBalance (TransferBalance seedDB noFaults 1 2 (.fin 100 0)).db.users 2 =
      some (.cents (50000 + 10000)) :=
  ⟨by decide, by decide,
   (transferBalance_moves_amount seedDB 1 2 (.fin 100 0) 10000 100000 (by decide) (by decide)
      (by decide) (by decide) (by decide)).1,
   ((transferBalance_moves_amount seedDB 1 2 (.fin 100 0) 10000 100000 (by decide) (by decide)
      (by decide) (by decide) (by decide)).2.2.2.1 (by decide)).1,
   ((transferBalance_moves_amount seedDB 1 2 (.fin 100 0) 10000 100000 (by decide) (by decide)
      (by decide) (by decide) (by decide)).2.2.2.1 (by decide)).2.1 50000 (by decide)⟩

/-- C10, as stated, fails in both halves.  First half: the amount NaN passes
both comparisons of `TransferBalance`, the two updates are executed and
committed, and the balances of sender and receiver are NaN afterwards,
which is not `>= 0`.  Second half: a transfer of the whole balance of the
sender to the sender itself is accepted and leaves the balance where it
was, not at 0; a transfer of the whole balance of a sender who holds 0 is
refused by the validation of the amount; a transfer of the whole balance
to an absent receiver is refused; and so is one during which a database
call fails. -/
theorem transferBalance_keeps_nonnegative_counterexample :
    ((∀ u ∈ seedDB.users, u.Balance.nonneg) ∧
      (TransferBalance seedDB noFaults 1 2 .nan).ret = none ∧
      selectBalance (TransferBalance seedDB noFaults 1 2 .nan).db.users 1 = some .nan ∧
      selectBalance (TransferBalance seedDB noFaults 1 2 .nan).db.users 2 = some .nan ∧
      ¬ ∀ u ∈ (TransferBalance seedDB noFaults 1 2 .nan).db.users, u.Balance.nonneg) ∧
    (selectBalance seedDB.users 1 = some (.cents 100000) ∧
      (TransferBalance seedDB noFaults 1 1 (.fin 1000 0)).ret = none ∧
      selectBalance (TransferBalance seedDB noFaults 1 1 (.fin 1000 0)).db.users 1 ≠
        some (.cents 0)) ∧
    (selectBalance emptyPurseDB.users 1 = some (.cents 0) ∧
      (TransferBalance emptyPurseDB noFaults 1 2 (.fin 0 0)).ret ≠ none) ∧
    (selectBalance seedDB.users 2 = some (.cents 50000) ∧
      (TransferBalance seedDB noFaults 2 999 (.fin 500 0)).ret ≠ none) ∧
    (TransferBalance seedDB commitFails 2 3 (.fin 500 0)).ret ≠ none := by
  decide

/-- C10, amended. On a table with unique identifiers in which every balance
is a number that is not negative, every balance is still one after any call
of `TransferBalance` whose amount is not NaN, whatever the identifiers, the
amount and the failures of the database.  A transfer of exactly the whole
balance of the sender is accepted and leaves the sender at 0 when that
balance is positive, the receiver exists and is another account, and the
database executes every call. -/
theorem transferBalance_keeps_nonnegative (db : DB) (f : Faults) (fromID toID : Int)
    (amount : Float64) (hunique : uniqueIDs db.users)
    (hnonneg : ∀ u ∈ db.users, u.Balance.nonneg) :
    (amount ≠ .nan →
      ∀ u ∈ (TransferBalance db f fromID toID amount).db.users, u.Balance.nonneg) ∧
    (∀ a : Int, amount.cents? = some a → 0 < a →
      selectBalance db.users fromID = some (.cents a) →
      selectExists db.users toID = true → fromID ≠ toID →
      (TransferBalance db noFaults fromID toID amount).ret = none ∧
      selectBalance (TransferBalance db noFaults fromID toID amount).db.users fromID =
        some (.cents 0)) := by
  constructor
  · intro hnan
    rcases transferBalance_outcome db f fromID toID amount with
      ⟨_, hdb⟩ | ⟨_, b, debited, credited, hreach, hd, hc, hdb⟩
    · rw [hdb]; exact hnonneg
    · rw [hdb]
      obtain ⟨⟨h0, _, _, hsel⟩, hnlt, _, _⟩ := hreach
      obtain ⟨w0, hw0, hw0b⟩ := selectBalance_mem db.users fromID b hsel
      have hb : b.nonneg := hw0b ▸ hnonneg w0 hw0
      cases amount with
      | nan => exact absurd rfl hnan
      | posInf =>
        exfalso
        cases b with
        | nan => exact hb
        | cents c => exact hnlt rfl
      | negInf => exact absurd (by decide) h0
      | fin u k =>
        have hu : 0 < u := by
          by_contra hcon
          apply h0
          show Float64.le (.fin u k) (.fin 0 0) = true
          have hp1 : pow10 0 = 1 := by unfold pow10; norm_num
          simp only [Float64.le, decide_eq_true_eq, hp1]
          omega
        intro r hr
        obtain ⟨v, hv, hvr⟩ := mapM_mem _ debited credited hc r hr
        obtain ⟨w, hw, hwv⟩ := mapM_mem _ db.users debited hd v hv
        have hvn : v.Balance.nonneg := by
          refine debitRow_nonneg u k fromID w v (hnonneg w hw) ?_ hwv
          intro hid
          rw [balance_of_selectBalance db.users fromID b hunique hsel w hw hid]
          exact hnlt
        exact creditRow_nonneg u k toID v r hu hvn hvr
  · intro a hcents hpos hsender hreceiver hne
    rw [transferBalance_success db fromID toID amount a a hcents hpos hsender le_rfl hreceiver]
    refine ⟨rfl, ?_⟩
    simp only [selectBalance_shiftRows, hsender, Option.map_some', if_neg hne, if_true,
      Numeric.shift]
    simp

/-- Instance of C10 as amended: Bob sends all of his 500.00 to Charlie. -/
theorem transferBalance_keeps_nonnegative_witness :
    uniqueIDs seedDB.users ∧ (∀ u ∈ seedDB.users, u.Balance.nonneg) ∧
    (∀ u ∈ (TransferBalance seedDB noFaults 2 3 (.fin 500 0)).db.users, u.Balance.nonneg) ∧
    (TransferBalance seedDB noFaults 2 3 (.fin 500 0)).ret = none ∧
    selectBalance (TransferBalance seedDB noFaults 2 3 (.fin 500 0)).db.users 2 =
      some (.cents 0) :=
  ⟨by decide, by decide,
   (transferBalance_keeps_nonnegative seedDB noFaults 2 3 (.fin 500 0) (by decide)
      (by decide)).1 (by decide),
   (transferBalance_keeps_nonnegative seedDB noFaults 2 3 (.fin 500 0) (by decide)
      (by decide)).2 50000 (by decide) (by decide) (by decide) (by decide) (by decide)⟩

/-! ## `InsertUser` -/

namespace Verify

/-- Last of a trace extended by two events. -/
theorem getLast?_append_pair (l : List Event) (x y : Event) :
    (l ++ [x, y]).getLast? = some y := by
  have h : l ++ [x, y] = (l ++ [x]) ++ [y] := by simp
  rw [h, List.getLast?_concat]

/-- C8. With a reachable database (the connection opens and answers the
ping), the verifier exits with status 1 exactly when the row of
`schema_migrations` is read and its dirty flag is true.  In every other
case the status is 0 and the run ends with the closing line of `main`.
Whatever the other checks answer, errors included, every check is made:
the existence of each of the three tables, the row count of each table
found to exist, the columns of `users` and the migration marker. -/
theorem main_exit_status (env : Env) (hopen : env.openErr = none)
    (hping : env.pingErr = none) :
    ((main env).exitCode = 1 ↔ ∃ version, env.migration = .ok (version, true)) ∧
    ((main env).exitCode ≠ 1 →
      (main env).exitCode = 0 ∧ (main env).trace.getLast? = some finalLine) ∧
    (∀ table ∈ tables, Event.query (.tableExists table) ∈ (main env).trace) ∧
    (∀ table ∈ tables, env.tableExists table = .ok true →
      Event.query (.countRows table) ∈ (main env).trace) ∧
    Event.query .columns ∈ (main env).trace ∧
    Event.query .migration ∈ (main env).trace := by
  have hcheck : ∀ table ∈ tables,
      Event.query (.tableExists table) ∈ (tables.map (checkTable env)).flatten := by
    intro table hmem
    refine List.mem_flatten.mpr ⟨checkTable env table, List.mem_map.mpr ⟨table, hmem, rfl⟩, ?_⟩
    simp [checkTable]
  have hcount : ∀ table ∈ tables, env.tableExists table = .ok true →
      Event.query (.countRows table) ∈ (tables.map (checkTable env)).flatten := by
    intro table hmem hex
    refine List.mem_flatten.mpr ⟨checkTable env table, List.mem_map.mpr ⟨table, hmem, rfl⟩, ?_⟩
    simp [checkTable, hex]
  have hcols : Event.query .columns ∈ checkColumns env := by
    simp [checkColumns]
  cases hmig : env.migration with
  | error err =>
    simp only [main, hopen, hping, hmig]
    refine ⟨by simp, fun _ => ⟨trivial, getLast?_append_pair _ _ _⟩, ?_, ?_, ?_, ?_⟩
    · intro table hmem
      have := hcheck table hmem
      simp [this]
    · intro table hmem hex
      have := hcount table hmem hex
      simp [this]
    · simp [hcols]
    · simp
  | ok row =>
    obtain ⟨version, dirty⟩ := row
    cases dirty with
    | true =>
      simp only [main, hopen, hping, hmig]
      refine ⟨by simp, by simp, ?_, ?_, ?_, ?_⟩
      · intro table hmem
        have := hcheck table hmem
        simp [this]
      · intro table hmem hex
        have := hcount table hmem hex
        simp [this]
      · simp [hcols]
      · simp
    | false =>
      simp only [main, hopen, hping, hmig]
      refine ⟨by simp, fun _ => ⟨rfl, List.getLast?_concat _⟩, ?_, ?_, ?_, ?_⟩
      · intro table hmem
        have := hcheck table hmem
        simp [this]
      · intro table hmem hex
        have := hcount table hmem hex
        simp [this]
      · simp [hcols]
      · simp

/-- Instance of C8: status 1 on a dirty marker, status 0 when every check fails. -/
theorem main_exit_status_witness :
    (main dirtyEnv).exitCode = 1 ∧
    ((main brokenEnv).exitCode = 0 ∧ (main brokenEnv).trace.getLast? = some finalLine) ∧
    Event.query .migration ∈ (main brokenEnv).trace :=
  ⟨(main_exit_status dirtyEnv rfl rfl).1.mpr ⟨3, rfl⟩,
   (main_exit_status brokenEnv rfl rfl).2.1 (by decide),
   (main_exit_status brokenEnv rfl rfl).2.2.2.2.2⟩

end Verify

end GoPractice
